import Mathlib

/-! HomeStore: a shallow embedding of `src/blkstore/blkstore.hpp` and of parts of
`src/lib/device/journal_vdev.hpp`, `src/iomgr/drive_endpoint.cpp`,
`src/volume/volume.hpp`, `src/blkalloc/blk_allocator.h`,
`src/homeblks/test_setup/simple_hs_setup.hpp` and
`src/homeds/tests/loadgen_tests/keyspecs/vdev_key_spec.hpp`.

The block store glues three collaborators together: the page cache (`m_cache`),
the virtual device (`m_vdev`) and the process heap (`posix_memalign`).  The
embedding below keeps the block store's own code as Lean functions over an
explicit state; calls into the virtual device are recorded in a call log, the
cache index is an association list, and buffer objects live in an object table
addressed by handle, so that in-place mutation of a shared buffer is visible
through every holder of the handle.

Faults that end a call abnormally (a failed `assert`, `std::bad_alloc`, access
to an empty `boost::optional`, dereference of a null `intrusive_ptr`, a piece
index outside the vector) are values of `Fault`; a faulting call returns
`Except.error`.
-/

namespace HomeStore

/-! ## Constants -/

/-- Modelled from the spec: `BLKSTORE_BLK_SIZE` is defined in `main/store_limits.h`,
which is not part of the source tree; the spec gives the default virtual-device
block size as 8192 bytes. -/
def BLKSTORE_BLK_SIZE : Nat := 8192

/-- Threshold `CACHE_DISCARD_THRESHOLD_SIZE` of blkstore.hpp line 29. -/
def CACHE_DISCARD_THRESHOLD_SIZE : Nat := 16384

/-- Range of `uint32_t`. -/
def U32 : Nat := 4294967296

/-- Range of `uint8_t`. -/
def U8 : Nat := 256

/-- Range of `uint16_t`. -/
def U16 : Nat := 65536

/-- Subtraction of two `uint32_t` values, wrapping modulo 2^32. -/
def u32_sub (a b : Nat) : Nat := ((a : Int) - (b : Int)).emod (U32 : Int) |>.toNat

/-! ## Data model -/

/-- Modelled from the spec: the block identifier `BlkId` (declared in `blk.h`, not
part of the source tree) is the triple (id: u32, nblks: u8, chunk: u16) packed
into 64 bits.  The fields are natural numbers; an identifier the code builds
goes through `BlkId.make`, which keeps each field inside its width. -/
structure BlkId where
  id : Nat
  nblks : Nat
  chunk : Nat
deriving DecidableEq, Repr

/-- Modelled from the spec: the constructor `BlkId(id, nblks, chunk)` stores each
argument in its field of 32, 8 and 16 bits, so an argument that does not fit
is cut to the width of the field. -/
def BlkId.make (id nblks chunk : Nat) : BlkId := ⟨id % U32, nblks % U8, chunk % U16⟩

/-- The fields of an identifier are inside their widths. -/
def BlkId.wf (b : BlkId) : Prop := b.id < U32 ∧ b.nblks < U8 ∧ b.chunk < U16

instance (b : BlkId) : Decidable b.wf := by
  unfold BlkId.wf; exact inferInstance

/-- A base pointer: the start of the `i`-th allocation made by `posix_memalign`, or
memory owned by a caller (the bytes of a blob). -/
inductive Ptr where
  | heap (i : Nat)
  | caller (addr : Nat)
deriving DecidableEq, Repr

/-- Modelled from the spec: a memory piece `omds::MemPiece` is
(base pointer, size, offset in the logical buffer); the pointer is `none` for a
piece whose pointer has not been set. -/
structure MemPiece where
  ptr : Option Ptr
  size : Nat
  offset : Nat
deriving DecidableEq, Repr

/-- Modelled from the spec: a memory vector `omds::MemVector` is an ordered list of
memory pieces. -/
abbrev MemVector := List MemPiece

/-- Modelled from the spec: a cache buffer (`BlkBuffer`) pairs a key with a memory
vector.  `make_object` yields the default value. -/
structure Buffer where
  key : BlkId
  memvec : MemVector
deriving DecidableEq, Repr

/-- The blob `omds::blob` handed to `write`: a pointer and a size. -/
structure Blob where
  bytes : Nat
  size : Nat
deriving DecidableEq, Repr

/-- Cache types, blkstore.hpp lines 18-22. -/
inductive BlkStoreCacheType where
  | PASS_THRU
  | WRITEBACK_CACHE
  | WRITETHRU_CACHE
deriving DecidableEq, Repr

/-- Abnormal ends of a call. -/
inductive Fault where
  /-- An `assert(...)` of the source failed. -/
  | assert_failed
  /-- `posix_memalign` failed and the code threw `std::bad_alloc`. -/
  | bad_alloc
  /-- A `boost::optional` was read through `get()` or `->` while empty. -/
  | optional_empty
  /-- An `intrusive_ptr` was dereferenced while null (or names no object). -/
  | null_pointer
  /-- A piece index outside the memory vector was passed to `get_nth_piece`. -/
  | out_of_range
  /-- An integer division by zero. -/
  | division_by_zero
  /-- The call `top()` on an empty `std::stack`. -/
  | empty_stack
  /-- The exception raised by `folly::throwSystemError`. -/
  | system_error
deriving DecidableEq, Repr

/-- Hints for the allocators, blk_allocator.h lines 88-92. -/
structure blk_alloc_hints where
  desired_temp : Nat
  dev_id_hint : Int
  can_look_for_other_dev : Bool
deriving DecidableEq, Repr

/-- One call made to the virtual device `m_vdev`. -/
inductive VdevCall where
  | alloc_blk (nblks : Nat) (hints : blk_alloc_hints)
  | free_blk (b : BlkId)
  | write (b : BlkId) (mvec : MemVector)
  | read (b : BlkId) (mp : MemPiece)
deriving DecidableEq, Repr

/-! ## The page cache -/

/-- Modelled from the spec: the cache `Cache<BlkId>` (cache/cache.h, not part of the
source tree) is an associative index from block identifier to buffer; the
entries hold buffer handles.  Eviction order and memory budget are not
modelled. -/
structure Cache where
  entries : List (BlkId × Nat)
deriving DecidableEq, Repr

/-- Modelled from the spec: `get(key)` looks the key up and returns the buffer on a
hit (the upvote only affects eviction order). -/
def Cache.get (c : Cache) (k : BlkId) : Option Nat :=
  (c.entries.find? (fun e => e.1 = k)).map Prod.snd

/-- Modelled from the spec: `insert(key, buffer)`: when no entry for the key exists,
install the buffer and report `inserted = true`; when one exists, report
`inserted = false` together with the existing buffer and never replace it.
The result is (inserted, out buffer, cache afterwards). -/
def Cache.insert (c : Cache) (k : BlkId) (b : Nat) : Bool × Nat × Cache :=
  match c.get k with
  | some e => (false, e, c)
  | none => (true, b, { entries := (k, b) :: c.entries })

/-- Modelled from the spec: `erase(key)` removes the key from the index and returns
the buffer it held, if any. -/
def Cache.erase (c : Cache) (k : BlkId) : Option Nat × Cache :=
  (c.get k, { entries := c.entries.filter (fun e => e.1 ≠ k) })

/-- Number of index entries held for a key. -/
def Cache.count (c : Cache) (k : BlkId) : Nat :=
  (c.entries.filter (fun e => e.1 = k)).length

/-! ## Memory-vector operations that are not in the source tree -/

/-- Operations of `omds::MemVector` that blkstore.hpp calls but whose code is not
part of the source tree.  They are parameters of the embedding.

* `find_index mvec offset` stands for `mvec.find_index(offset, boost::none, &ind)`
  and yields the returned flag together with the index written to `ind`.
* `fill_next_missing_piece mvec c size offset` stands for
  `mvec.fill_next_missing_piece(c, size, offset)`: `none` when the vector has no
  missing piece left, otherwise the vector after the call, given as the pieces
  before the new piece, the new piece itself (the returned reference) and the
  pieces after it, together with the advanced cursor. -/
structure MemVecOps where
  cursor_t : Type
  cursor_new : cursor_t
  find_index : MemVector → Nat → Bool × Int
  fill_next_missing_piece :
    MemVector → cursor_t → Nat → Nat → Option (MemVector × MemPiece × MemVector × cursor_t)

/-! ## Block store state -/

/-- State of a `BlkStore` together with the collaborators it drives.

* `m_cache` is the cache index.
* `objs` is the table of buffer objects; a handle is an index into it.
* `heap` lists the sizes of the allocations made by `posix_memalign`; a pointer
  is an index into it.
* `enomem_at` lists the allocation sequence numbers at which `posix_memalign`
  fails.
* `vdev_calls` is the log of calls made to `m_vdev`, oldest first. -/
structure BlkStore where
  m_cache : Cache
  m_cache_type : BlkStoreCacheType
  objs : List Buffer
  heap : List Nat
  enomem_at : List Nat
  vdev_calls : List VdevCall
deriving DecidableEq, Repr

/-- Dereference of a buffer handle. -/
def BlkStore.deref (s : BlkStore) (h : Nat) : Except Fault Buffer :=
  match s.objs[h]? with
  | some b => .ok b
  | none => .error .null_pointer

/-- The `make_object()` of a buffer: a fresh handle naming a default buffer. -/
def BlkStore.make_object (s : BlkStore) : Nat × BlkStore :=
  (s.objs.length, { s with objs := s.objs ++ [{ key := ⟨0, 0, 0⟩, memvec := [] }] })

/-- In-place update of the buffer object behind a handle. -/
def BlkStore.set_obj (s : BlkStore) (h : Nat) (b : Buffer) : BlkStore :=
  { s with objs := s.objs.set h b }

/-- The call `posix_memalign(&ptr, 4096, size)` followed by the source's
`if (ret != 0) throw std::bad_alloc()`. -/
def BlkStore.posix_memalign (s : BlkStore) (size : Nat) : Except Fault (Nat × BlkStore) :=
  if s.heap.length ∈ s.enomem_at then .error .bad_alloc
  else .ok (s.heap.length, { s with heap := s.heap ++ [size] })

/-- Append one call to the virtual-device log. -/
def BlkStore.vdev (s : BlkStore) (c : VdevCall) : BlkStore :=
  { s with vdev_calls := s.vdev_calls ++ [c] }

/-- The accessor `get()` of a `boost::optional`, which requires a value. -/
def optional_get (o : Option Nat) : Except Fault Nat :=
  match o with
  | some v => .ok v
  | none => .error .optional_empty

/-- The accessor `mvec.get_nth_piece((uint32_t) i)` for an `int` index. -/
def get_nth_piece (mvec : MemVector) (i : Int) : Except Fault MemPiece :=
  if i < 0 then .error .out_of_range
  else match mvec[i.toNat]? with
    | some mp => .ok mp
    | none => .error .out_of_range

/-- The loop `for (i = start; i < start + n; i++) out.push_back(mvec.get_nth_piece(i))`:
the pieces copied, in order. -/
def copy_pieces (mvec : MemVector) : Int → Nat → Except Fault MemVector
  | _, 0 => .ok []
  | i, n + 1 => do
    let mp ← get_nth_piece mvec i
    let rest ← copy_pieces mvec (i + 1) n
    pure (mp :: rest)

/-! ## Partial-range invalidation: `free_partial_cache` (blkstore.hpp lines 250-327) -/

/-- Left-hand side processing, lines 260-279.  The input is the memory vector of
the buffer and `from_offset`; the result is the value of `left_ind` after the
block together with `left_mvec`. -/
def free_partial_left (ops : MemVecOps) (mvec : MemVector) (from_offset : Nat) :
    Except Fault (Int × MemVector) :=
  if from_offset ≠ 0 then
    let r := ops.find_index mvec from_offset
    let is_left_overlap := r.1
    let left_ind := r.2
    -- for (auto i = 0; i < left_ind - 1; i++)
    match copy_pieces mvec 0 (left_ind - 1).toNat with
    | .error e => .error e
    | .ok left_mvec =>
      if is_left_overlap then
        match get_nth_piece mvec left_ind with
        | .error e => .error e
        | .ok left_mp =>
          let sz := u32_sub from_offset left_mp.offset
          if sz ≠ 0 then .ok (left_ind, left_mvec ++ [{ left_mp with size := sz }])
          else .ok (left_ind, left_mvec)
      else .ok (left_ind, left_mvec)
  else .ok (0, [])

/-- Right-hand side processing, lines 281-306.  The inputs are the state (for the
heap), the memory vector, the value of `left_ind` and `to_offset`; the result
is `right_mvec` and the state afterwards.  The loop test `i < mvec.npieces()`
is taken as a comparison of signed values, so a negative `right_ind` reaches
`get_nth_piece((uint32_t) i)` with an index outside the vector. -/
def free_partial_right (ops : MemVecOps) (s : BlkStore) (mvec : MemVector) (left_ind : Int)
    (to_offset : Nat) : Except Fault (MemVector × BlkStore) :=
  let right_ind := (ops.find_index mvec to_offset).2
  let tail (right_mvec : MemVector) (right_ind : Int) (s1 : BlkStore) :
      Except Fault (MemVector × BlkStore) :=
    -- for (auto i = right_ind; i < mvec.npieces(); i++)
    match copy_pieces mvec right_ind ((mvec.length : Int) - right_ind).toNat with
    | .error e => .error e
    | .ok rest => .ok (right_mvec ++ rest, s1)
  if left_ind = right_ind then
    match get_nth_piece mvec right_ind with
    | .error e => .error e
    | .ok right_mp =>
      let sz := u32_sub ((right_mp.offset + right_mp.size) % U32) to_offset
      if sz ≠ 0 ∧ sz ≤ CACHE_DISCARD_THRESHOLD_SIZE then
        match s.posix_memalign sz with
        | .error e => .error e
        | .ok (ptr, s1) =>
          tail [{ ptr := some (.heap ptr), size := sz, offset := to_offset }] (right_ind + 1) s1
      else tail [] right_ind s
  else tail [] right_ind s

/-- The private method `free_partial_cache(inbuf, from_nblk, to_nblk)`.  The result
is the array `bbufs` (a null entry is `none`) and the state afterwards. -/
def free_partial_cache (ops : MemVecOps) (s : BlkStore) (inbuf : Nat) (from_nblk to_nblk : Nat) :
    Except Fault ((Option Nat × Option Nat) × BlkStore) := do
  let from_offset := (from_nblk * BLKSTORE_BLK_SIZE) % U32
  let to_offset := (to_nblk * BLKSTORE_BLK_SIZE) % U32
  let ib ← s.deref inbuf
  let mvec := ib.memvec
  let orig_b := ib.key
  let (left_ind, left_mvec) ← free_partial_left ops mvec from_offset
  let (right_mvec, s1) ← free_partial_right ops s mvec left_ind to_offset
  -- Finally form the new Buffer with new blkid and left mvec pieces
  let (b, bbufs, s2) :=
    if from_nblk ≠ 0 then
      let lb : BlkId := BlkId.make orig_b.id from_nblk orig_b.chunk
      ((1 : Nat), ((some inbuf, none) : Option Nat × Option Nat),
        s1.set_obj inbuf { key := lb, memvec := left_mvec })
    else (0, (none, none), s1)
  -- Similar to that to the right mvec pieces
  if orig_b.nblks ≠ to_nblk then
    let rb : BlkId :=
      BlkId.make (orig_b.id + to_nblk)
        (((orig_b.nblks : Int) - (to_nblk : Int)).emod (U8 : Int)).toNat orig_b.chunk
    let (h, s3) := s2.make_object
    let s4 := s3.set_obj h { key := rb, memvec := right_mvec }
    pure (if b = 0 then (some h, bbufs.2) else (bbufs.1, some h), s4)
  else pure (bbufs, s2)

/-! ## `free_blk` (blkstore.hpp lines 100-140) -/

/-- One round of the loop of lines 126-132 for index `i` (0 or 1): read the key of
`bbufs[i]`, store it into `ret_arr->at(i)`, insert the buffer into the cache and
assert that it was inserted. -/
def free_blk_add_split (s : BlkStore) (bbufs : Option Nat × Option Nat)
    (ret_arr : Option (BlkId × BlkId)) (i : Nat) :
    Except Fault (Option (BlkId × BlkId) × BlkStore) := do
  let h ← match (if i = 0 then bbufs.1 else bbufs.2) with
    | some h => pure h
    | none => throw Fault.null_pointer
  let b ← s.deref h
  let arr ← match ret_arr with
    | some arr => pure arr
    | none => throw Fault.optional_empty
  let arr1 : BlkId × BlkId := if i = 0 then (b.key, arr.2) else (arr.1, b.key)
  let key := if i = 0 then arr1.1 else arr1.2
  let r := s.m_cache.insert key h
  if r.1 then pure (some arr1, { s with m_cache := r.2.2 })
  else throw Fault.assert_failed

/-- The method `free_blk(bid, blkoffset, nblks)`.  The two optional arguments are
`boost::optional<uint8_t>`.  The comparison `nblks.get() < bid.get_nblks() * 0.8`
is carried out in `double`; for 8-bit operands it holds exactly when
`5 * nblks < 4 * bid.get_nblks()`, which is what the embedding tests.  The
result is the returned optional array and the state afterwards. -/
def free_blk (ops : MemVecOps) (s : BlkStore) (bid : BlkId) (blkoffset nblks : Option Nat) :
    Except Fault (Option (BlkId × BlkId) × BlkStore) :=
  -- boost::optional<std::array<BlkId, 2>> ret_arr;
  let ret_arr : Option (BlkId × BlkId) := none
  if blkoffset.getD 0 = 0 ∧ (nblks = none ∨ nblks = some bid.nblks) then
    let s1 := { s with m_cache := (s.m_cache.erase bid).2 }
    .ok (none, s1.vdev (.free_blk bid))
  else do
    let erased := s.m_cache.erase bid
    let s1 := { s with m_cache := erased.2 }
    let (ret_arr, s2) ← match erased.1 with
      | some erased_buf => do
        let n ← optional_get nblks
        if 5 * n < 4 * bid.nblks then do
          let from_blk := blkoffset.getD 0
          let to_blk := (from_blk + nblks.getD bid.nblks) % U8
          let (bbufs, s2) ← free_partial_cache ops s1 erased_buf from_blk to_blk
          let (ret_arr, s3) ← free_blk_add_split s2 bbufs ret_arr 0
          free_blk_add_split s3 bbufs ret_arr 1
        else pure (ret_arr, s1)
      | none => pure (ret_arr, s1)
    let off ← optional_get blkoffset
    let tmp_bid : BlkId := BlkId.make (bid.id + off) bid.nblks bid.chunk
    pure (ret_arr, s2.vdev (.free_blk tmp_bid))

/-! ## `write` (blkstore.hpp lines 159-172) -/

/-- Modelled from the spec: the cache's `insert(key, blob, value_offset, &out)`
(cache/cache.cpp, not part of the source tree): allocate a buffer whose memory
vector covers the blob at `value_offset`, then `insert` it.  The result is
(inserted, out buffer, state afterwards). -/
def cache_insert_blob (s : BlkStore) (k : BlkId) (blob : Blob) (value_offset : Nat) :
    Bool × Nat × BlkStore :=
  let (h, s1) := s.make_object
  let s2 := s1.set_obj h
    { key := k, memvec := [{ ptr := some (.caller blob.bytes), size := blob.size,
                             offset := value_offset }] }
  let r := s2.m_cache.insert k h
  (r.1, r.2.1, { s2 with m_cache := r.2.2 })

/-- The method `write(bid, blob)`: result is the returned buffer and the state
afterwards. -/
def write (s : BlkStore) (bid : BlkId) (blob : Blob) : Except Fault (Nat × BlkStore) :=
  let r := cache_insert_blob s bid blob 0
  -- assert(inserted)
  if r.1 then
    -- m_vdev.write(bid, bbuf->get_memvec())
    match r.2.2.deref r.2.1 with
    | .error e => .error e
    | .ok b => .ok (r.2.1, r.2.2.vdev (.write bid b.memvec))
  else .error .assert_failed

/-! ## `read` (blkstore.hpp lines 179-239) -/

/-- The four entry assertions of `read`, lines 183-186, in source order.  The sum
`offset + size` is computed in `uint32_t`. -/
def read_asserts (offset size : Nat) : List Bool :=
  [ decide ((offset + size) % U32 ≤ 256 * BLKSTORE_BLK_SIZE),
    decide (offset < 256 * BLKSTORE_BLK_SIZE),
    decide (offset % BLKSTORE_BLK_SIZE = 0),
    decide (size % BLKSTORE_BLK_SIZE = 0) ]

/-- Local variables of the loop of lines 202-224 together with the state. -/
structure ReadVars (ops : MemVecOps) where
  s : BlkStore
  c : ops.cursor_t
  cur_offset : Nat
  size_to_read : Nat

/-- How the loop of `read` was left: normally, by a fault, or because the
evaluation budget of the embedding ran out. -/
inductive LoopExit where
  | done
  | fault (f : Fault)
  | out_of_fuel
deriving DecidableEq, Repr

/-- The loop `while (size_to_read > 0)` of lines 202-224 for the buffer `bbuf`.  The
second component is the state reached when the loop was left. -/
def read_loop (ops : MemVecOps) (bid : BlkId) (bbuf : Nat) (size : Nat) :
    Nat → ReadVars ops → LoopExit × ReadVars ops
  | 0, v => (if v.size_to_read > 0 then .out_of_fuel else .done, v)
  | fuel + 1, v =>
    if v.size_to_read > 0 then
      match v.s.deref bbuf with
      | .error e => (.fault e, v)
      | .ok buf =>
        match ops.fill_next_missing_piece buf.memvec v.c size v.cur_offset with
        | none => (.done, v)
        | some (pre, missing_mp, post, c1) =>
          -- the vector now holds the new piece
          let s1 := v.s.set_obj bbuf { buf with memvec := pre ++ [missing_mp] ++ post }
          -- cur_offset = missing_mp->end_offset()
          let cur_offset := (missing_mp.offset + missing_mp.size) % U32
          match s1.posix_memalign missing_mp.size with
          | .error e => (.fault e, { v with s := s1, c := c1, cur_offset := cur_offset })
          | .ok (ptr, s2) =>
            -- missing_mp.get().set_ptr(ptr)
            let mp : MemPiece := { missing_mp with ptr := some (.heap ptr) }
            let s3 := s2.set_obj bbuf { buf with memvec := pre ++ [mp] ++ post }
            let tmp_bid : BlkId :=
              (BlkId.make (bid.id + missing_mp.offset / BLKSTORE_BLK_SIZE)
                (missing_mp.size / BLKSTORE_BLK_SIZE) bid.chunk)
            let s4 := s3.vdev (.read tmp_bid mp)
            read_loop ops bid bbuf size fuel
              { s := s4, c := c1, cur_offset := cur_offset,
                size_to_read := u32_sub v.size_to_read missing_mp.size }
    else (.done, v)

/-- The method `read(bid, offset, size)`, evaluated with a budget of `fuel` loop
rounds; `none` means the budget ran out.  The cache is shared with other
threads: `race` is the buffer another thread inserts for `bid` between this
call's lookup and its own insert (`none` when there is no such thread).  The
result is the returned buffer and the state afterwards. -/
def read (ops : MemVecOps) (fuel : Nat) (s : BlkStore) (bid : BlkId) (offset size : Nat)
    (race : Option Nat) : Option (Except Fault (Nat × BlkStore)) :=
  if (read_asserts offset size).all id then
    -- Check if the entry exists in the cache.
    let cache_found := s.m_cache.get bid
    let (bbuf, s1) := match cache_found with
      | some h => (h, s)
      | none =>
        let (h, s1) := s.make_object
        (h, s1.set_obj h { key := bid, memvec := [] })
    match read_loop ops bid bbuf size fuel
        { s := s1, c := ops.cursor_new, cur_offset := offset, size_to_read := size } with
    | (.out_of_fuel, _) => none
    | (.fault f, _) => some (.error f)
    | (.done, v) =>
      let s2 : BlkStore := match race with
        | some r => { v.s with m_cache := (v.s.m_cache.insert bid r).2.2 }
        | none => v.s
      if cache_found.isNone then
        match s2.deref bbuf with
        | .error e => some (.error e)
        | .ok b =>
          let r := s2.m_cache.insert b.key bbuf
          some (.ok (if r.1 then bbuf else r.2.1, { s2 with m_cache := r.2.2 }))
      else some (.ok (bbuf, s2))
  else some (.error .assert_failed)

/-! ## Contracts and reference instances for the memory-vector operations -/

/-- Two pieces cover disjoint ranges of the logical buffer. -/
def MemPiece.disjoint (p q : MemPiece) : Prop :=
  p.offset + p.size ≤ q.offset ∨ q.offset + q.size ≤ p.offset

instance (p q : MemPiece) : Decidable (p.disjoint q) := by
  unfold MemPiece.disjoint; infer_instance

/-- The piece covers the byte at logical offset `x`. -/
def MemPiece.covers (p : MemPiece) (x : Nat) : Prop :=
  p.offset ≤ x ∧ x < p.offset + p.size

instance (p : MemPiece) (x : Nat) : Decidable (p.covers x) := by
  unfold MemPiece.covers; infer_instance

/-- What `read` relies on from `fill_next_missing_piece` to leave its loop: a
returned piece is not empty, starts at or after the offset asked for and ends
at or before `limit`. -/
def FillAdvances (ops : MemVecOps) (limit : Nat) : Prop :=
  ∀ mvec c size offset pre mp post c1,
    ops.fill_next_missing_piece mvec c size offset = some (pre, mp, post, c1) →
    offset ≤ mp.offset ∧ 0 < mp.size ∧ mp.offset + mp.size ≤ limit

/-- Modelled from the spec: reference `find_index`.  The source uses the flag as
"a piece overlaps the offset" and the index as the position of that piece; when
no piece overlaps, the reference yields the number of pieces that end at or
before the offset. -/
def ref_find_index (mvec : MemVector) (offset : Nat) : Bool × Int :=
  match mvec.findIdx? (fun mp => decide (mp.covers offset)) with
  | some i => (true, (i : Int))
  | none => (false, ((mvec.filter (fun mp => mp.offset + mp.size ≤ offset)).length : Int))

/-- First logical offset at or after `pos` that no piece covers, following at most
`k` pieces. -/
def skip_present (mvec : MemVector) : Nat → Nat → Nat
  | 0, pos => pos
  | k + 1, pos =>
    match mvec.find? (fun mp => decide (mp.covers pos)) with
    | some q => skip_present mvec k (q.offset + q.size)
    | none => pos

/-- Modelled from the spec: reference `fill_next_missing_piece`.  The spec iterates
the vector with a cursor over [offset, offset + size) and yields each missing
piece.  The cursor remembers the end of that window (set by the first call);
each call yields the first gap at or after the offset asked for, cut at the
next piece and at the end of the window, as a new piece without pointer.  A buffer
spans at most 256 blocks (the bound asserted by `read`), so the window is cut
there. -/
def ref_fill_next_missing_piece (mvec : MemVector) (c : Option Nat) (size offset : Nat) :
    Option (MemVector × MemPiece × MemVector × Option Nat) :=
  let window_end := min (c.getD (offset + size)) (256 * BLKSTORE_BLK_SIZE)
  let start := skip_present mvec mvec.length offset
  let stop := (mvec.filter (fun q => start < q.offset)).foldl (fun e q => min e q.offset) window_end
  let mp : MemPiece := { ptr := none, size := stop - start, offset := start }
  if start < stop ∧ offset ≤ start ∧ stop ≤ window_end ∧ mvec.all (fun q => decide (mp.disjoint q)) then
    some (mvec.takeWhile (fun q => q.offset < start), mp,
          mvec.dropWhile (fun q => q.offset < start), some window_end)
  else none

/-- Reference instance of the memory-vector operations. -/
def refOps : MemVecOps where
  cursor_t := Option Nat
  cursor_new := none
  find_index := ref_find_index
  fill_next_missing_piece := ref_fill_next_missing_piece

/-! ## Concrete scenarios -/

/-- A 16-block run on chunk 0. -/
def B16 : BlkId := ⟨0, 16, 0⟩

/-- A block store whose cache is empty. -/
def st_empty : BlkStore :=
  { m_cache := ⟨[]⟩, m_cache_type := .WRITETHRU_CACHE, objs := [], heap := [],
    enomem_at := [], vdev_calls := [] }

/-- The single piece that covers all 16 blocks of `B16`. -/
def piece_full : MemPiece := { ptr := some (.heap 0), size := 131072, offset := 0 }

/-- A block store whose cache holds `B16` with all 16 blocks populated by one piece
(scenario 3 of the spec before the free). -/
def st_full : BlkStore :=
  { m_cache := ⟨[(B16, 0)]⟩, m_cache_type := .WRITETHRU_CACHE,
    objs := [{ key := B16, memvec := [piece_full] }],
    heap := [131072], enomem_at := [], vdev_calls := [] }

/-- The buffer object of `st_full` exists but the cache index is empty. -/
def st_cold : BlkStore := { st_full with m_cache := ⟨[]⟩ }

/-- A block store whose cache holds `B16` populated by two pieces: blocks 0 to 7 and
blocks 8 to 13. -/
def st_two : BlkStore :=
  { m_cache := ⟨[(B16, 0)]⟩, m_cache_type := .WRITETHRU_CACHE,
    objs := [{ key := B16,
               memvec := [{ ptr := some (.heap 0), size := 65536, offset := 0 },
                          { ptr := some (.heap 1), size := 49152, offset := 65536 }] }],
    heap := [65536, 49152], enomem_at := [], vdev_calls := [] }

/-- Some logical offset of the vector is covered by one of its pieces. -/
def covers_byte (mvec : MemVector) (x : Nat) : Bool :=
  mvec.any (fun p => decide (p.covers x))

/-! ## Allocation and the write of a caller's buffer (blkstore.hpp lines 60-98, 142-150, 174-177) -/

/-- The method `alloc_blk(nblks, hints, out_blkid)`, lines 61-64.  Which block
identifier the virtual device writes to `out_blkid` is not decided by the block
store; it is the parameter `vdev_out`.  The result is the value of `*out_blkid`
after the call and the state afterwards. -/
def alloc_blk (s : BlkStore) (nblks : Nat) (hints : blk_alloc_hints) (vdev_out : BlkId) :
    BlkId × BlkStore :=
  (vdev_out, s.vdev (.alloc_blk nblks hints))

/-- The method `alloc_blk_cached(nblks, hints, out_blkid)`, lines 69-98, for a
`uint8_t` count `nblks`.  The call `mvec.set(ptr, size, 0)` makes the vector the
single piece (ptr, size, offset 0).  The result is the returned buffer, the
value of `*out_blkid` and the state afterwards. -/
def alloc_blk_cached (s : BlkStore) (nblks : Nat) (hints : blk_alloc_hints) (vdev_out : BlkId) :
    Except Fault (Nat × BlkId × BlkStore) :=
  -- Allocate a block from the device manager
  let (out_blkid, s1) := alloc_blk s nblks hints vdev_out
  -- Create an object for the buffer
  let (buf, s2) := s1.make_object
  let s3 := s2.set_obj buf { key := out_blkid, memvec := [] }
  let size := (nblks * BLKSTORE_BLK_SIZE) % U32
  match s3.posix_memalign size with
  | .error e => .error e
  | .ok (ptr, s4) =>
    let s5 := s4.set_obj buf
      { key := out_blkid, memvec := [{ ptr := some (.heap ptr), size := size, offset := 0 }] }
    -- Insert this buffer to the cache.
    let r := s5.m_cache.insert out_blkid buf
    -- assert(inserted)
    if r.1 then .ok (buf, out_blkid, { s5 with m_cache := r.2.2 })
    else .error .assert_failed

/-- Modelled from the spec: `round_off(val, rnd)` is a macro that is not part of the
source tree; the spec sizes the allocation "up to blk_size multiples", which is
taken as the number of whole blocks that hold `val` bytes. -/
def round_off (val rnd : Nat) : Nat := (val + rnd - 1) / rnd

/-- The method `alloc_and_write(blob, hints)`, lines 143-150.  The count handed to
the virtual device is a `uint8_t`, as in `alloc_blk`; `vdev_out` is the block
identifier the virtual device writes to `bid`. -/
def alloc_and_write (s : BlkStore) (blob : Blob) (hints : blk_alloc_hints) (vdev_out : BlkId) :
    Except Fault (Nat × BlkStore) :=
  -- First allocate the blk id based on the hints
  let s1 := s.vdev (.alloc_blk (round_off blob.size BLKSTORE_BLK_SIZE % U8) hints)
  -- Insert the entry into the cache and then write to the device.
  write s1 vdev_out blob

/-! ## Journal virtual device (journal_vdev.hpp lines 246-265) -/

/-- Range of `uint64_t`. -/
def U64 : Nat := 18446744073709551616

/-- Subtraction of two `uint64_t` values, wrapping modulo 2^64. -/
def u64_sub (a b : Nat) : Nat := ((a : Int) - (b : Int)).emod (U64 : Int) |>.toNat

/-- The part of a `JournalVirtualDev` that its size accessors read: the two
counters, and the values of `size()` and `block_size()` of the base class
`VirtualDev` (virtual_dev.hpp is not part of the source tree).  All four are
`uint64_t` values. -/
structure JournalVirtualDev where
  m_write_sz_in_total : Nat
  m_reserved_sz : Nat
  size : Nat
  block_size : Nat
deriving DecidableEq, Repr

/-- The accessor `used_size()`, line 251. -/
def JournalVirtualDev.used_size (d : JournalVirtualDev) : Nat :=
  (d.m_write_sz_in_total + d.m_reserved_sz) % U64

/-- The accessor `available_size()`, line 258. -/
def JournalVirtualDev.available_size (d : JournalVirtualDev) : Nat :=
  u64_sub d.size d.used_size

/-- The accessor `available_blks()`, line 265. -/
def JournalVirtualDev.available_blks (d : JournalVirtualDev) : Except Fault Nat :=
  if d.block_size = 0 then .error .division_by_zero
  else .ok (d.available_size / d.block_size)

/-! ## Volume (volume.hpp lines 140-147) -/

/-- The method `Volume::get_last_lba()` for `m_sb->size = size` and
`HomeStoreConfig::phys_page_size = phys_page_size`, both `uint64_t`. -/
def get_last_lba (size phys_page_size : Nat) : Except Fault Nat :=
  -- assert(m_sb->size != 0)
  if size = 0 then .error .assert_failed
  else if phys_page_size = 0 then .error .division_by_zero
  else if size % phys_page_size = 0 then .ok (u64_sub (size / phys_page_size) 1)
  else .ok (size / phys_page_size)

/-! ## Load-generator key of the log device (vdev_key_spec.hpp) -/

/-- The macro `MAX_VDEV_ALLOC_SIZE`, line 20. -/
def MAX_VDEV_ALLOC_SIZE : Nat := 8192

/-- The macro `VDEV_BLK_SIZE`, line 21. -/
def VDEV_BLK_SIZE : Nat := 512

/-- The method `VDevKey::get_rand_alloc_size()`, lines 89-94, for the value `rand`
returned by `rand()`, an `int` in [0, RAND_MAX]. -/
def get_rand_alloc_size (rand : Nat) : Nat :=
  let d := rand % (MAX_VDEV_ALLOC_SIZE / VDEV_BLK_SIZE)
  -- size is between VDEV_BLK_SIZE ~ MAX_VDEV_ALLOC_SIZE, aligned of VDEV_BLK_SIZE
  ((d + 1) * VDEV_BLK_SIZE) % U64

/-! ## Asynchronous drive end point (drive_endpoint.cpp) -/

/-- The operation an `iocb` was prepared for. -/
inductive aio_opcode where
  | pread
  | pwrite
  | preadv
  | pwritev
deriving DecidableEq, Repr

/-- A control block `struct iocb_info`: the fields of the `iocb` that the code sets
(`nbytes` is the byte count of `pread` and `pwrite` and the vector count of
`preadv` and `pwritev`; `data` is the cookie pointer) and the flag `is_read`.
The time stamp `start_time` is not modelled. -/
structure iocb_info where
  opcode : aio_opcode
  fildes : Int
  nbytes : Nat
  offset : Nat
  data : Nat
  resfd : Int
  is_read : Bool
deriving DecidableEq, Repr

/-- A request held by the kernel after `io_submit`: the pointer to the control block
and the copy of the control block that the kernel took. -/
structure aio_req where
  obj : Nat
  cb : iocb_info
deriving DecidableEq, Repr

/-- A completion `struct io_event`: `obj` and `data` are those of the request,
`res` is its result. -/
structure io_event where
  obj : Nat
  data : Nat
  res : Int
deriving DecidableEq, Repr

/-- Thread-local state of a `DriveEndPoint` and of the kernel context it drives.

* `iocb_list` is the stack of free control blocks, top first.
* `iocbs` is the table of control blocks; a pointer is an index into it.
* `in_flight` lists the requests the kernel holds, oldest first.
* `comp_cb_calls` is the log of calls of the completion callback `comp_cb`
  (result, cookie), oldest first. -/
structure DriveEndPoint where
  ev_fd : Int
  iocb_list : List Nat
  iocbs : List iocb_info
  in_flight : List aio_req
  comp_cb_calls : List (Int × Nat)
  spurious_events : Nat
  cmp_err : Nat
  total_write_ios : Nat
  total_read_ios : Nat
deriving DecidableEq, Repr

/-- The library calls `io_prep_pwrite`, `io_prep_pread`, `io_prep_pwritev` and
`io_prep_preadv` of libaio: the `iocb` is cleared and the operation, the file
descriptor, the count and the offset are set. -/
def io_prep (op : aio_opcode) (cb : iocb_info) (fd : Int) (count offset : Nat) : iocb_info :=
  { cb with opcode := op, fildes := fd, nbytes := count, offset := offset, data := 0, resfd := 0 }

/-- The common body of the four `async_*` methods, lines 111-195: take the top
control block off the stack, prepare it with `prep`, bind it to the eventfd,
store the cookie, set `is_read`, submit.  `io_submit_ret` is the value returned
by `io_submit`; the kernel has taken the request exactly when it is 1.  The
buffers (`data`, `iov`) are not modelled, and the `size` argument of the two
vector methods is not used by the code.  The result is the fault raised, if
any, and the state left behind. -/
def async_submit (prep : iocb_info → iocb_info) (is_read : Bool) (ep : DriveEndPoint)
    (cookie : Nat) (io_submit_ret : Int) : Option Fault × DriveEndPoint :=
  match ep.iocb_list with
  | [] => (some .empty_stack, ep)
  | info :: rest =>
    let ep1 := { ep with iocb_list := rest }
    -- assert(iocb != NULL)
    match ep1.iocbs[info]? with
    | none => (some .assert_failed, ep1)
    | some cb =>
      let cb1 := { prep cb with resfd := ep1.ev_fd }
      let cb2 := { cb1 with data := cookie, is_read := is_read }
      let ep2 := { ep1 with iocbs := ep1.iocbs.set info cb2 }
      if io_submit_ret ≠ 1 then (some .system_error, ep2)
      else if is_read then
        (none, { ep2 with in_flight := ep2.in_flight ++ [⟨info, cb2⟩],
                          total_read_ios := ep2.total_read_ios + 1 })
      else
        (none, { ep2 with in_flight := ep2.in_flight ++ [⟨info, cb2⟩],
                          total_write_ios := ep2.total_write_ios + 1 })

/-- The method `async_write`, lines 111-130. -/
def async_write (ep : DriveEndPoint) (m_sync_fd : Int) (size offset cookie : Nat)
    (io_submit_ret : Int) : Option Fault × DriveEndPoint :=
  async_submit (fun cb => io_prep .pwrite cb m_sync_fd size offset) false ep cookie io_submit_ret

/-- The method `async_read`, lines 132-152. -/
def async_read (ep : DriveEndPoint) (m_sync_fd : Int) (size offset cookie : Nat)
    (io_submit_ret : Int) : Option Fault × DriveEndPoint :=
  async_submit (fun cb => io_prep .pread cb m_sync_fd size offset) true ep cookie io_submit_ret

/-- The method `async_writev`, lines 154-174. -/
def async_writev (ep : DriveEndPoint) (m_sync_fd : Int) (iovcnt offset cookie : Nat)
    (io_submit_ret : Int) : Option Fault × DriveEndPoint :=
  async_submit (fun cb => io_prep .pwritev cb m_sync_fd iovcnt offset) false ep cookie
    io_submit_ret

/-- The method `async_readv`, lines 176-195. -/
def async_readv (ep : DriveEndPoint) (m_sync_fd : Int) (iovcnt offset cookie : Nat)
    (io_submit_ret : Int) : Option Fault × DriveEndPoint :=
  async_submit (fun cb => io_prep .preadv cb m_sync_fd iovcnt offset) true ep cookie
    io_submit_ret

/-- What the kernel answers to one `io_getevents`: an error (the call returns the
negated `errno`), or the completions it reports, each given as the position of
the request among those in flight at that moment and its result. -/
inductive KernelAnswer where
  | error (errno : Nat)
  | completed (picks : List (Nat × Int))
deriving DecidableEq, Repr

/-- The kernel reports at most `nr` of the picked requests, in order; a reported
request leaves the in-flight list and its event carries the `obj` and the `data`
of the control block as submitted.  The result is the events and the requests
still in flight. -/
def reap : Nat → List aio_req → List (Nat × Int) → List io_event × List aio_req
  | 0, fl, _ => ([], fl)
  | _ + 1, fl, [] => ([], fl)
  | n + 1, fl, (i, res) :: rest =>
    match fl[i]? with
    | none => reap (n + 1) fl rest
    | some r =>
      let o := reap n (fl.eraseIdx i) rest
      ({ obj := r.obj, data := r.cb.data, res := res } :: o.1, o.2)

/-- The library call `io_getevents(ioctx, 0, nr, events, NULL)`: the value returned,
the events written to the array and the requests still in flight. -/
def io_getevents (in_flight : List aio_req) (nr : Nat) (ans : KernelAnswer) :
    Int × List io_event × List aio_req :=
  match ans with
  | .error errno => (-(errno : Int), [], in_flight)
  | .completed picks =>
    let o := reap nr in_flight picks
    ((o.1.length : Int), o.1, o.2)

/-- The loop of lines 85-99, `n` rounds from index `i`: the control block named by
the event is read, pushed back on the stack, and the callback is called with
the result and the cookie of the event. -/
def completion_loop (events : List io_event) : Nat → Nat → DriveEndPoint →
    Option Fault × DriveEndPoint
  | 0, _, ep => (none, ep)
  | n + 1, i, ep =>
    match events[i]? with
    | none => (some .out_of_range, ep)
    | some e =>
      match ep.iocbs[e.obj]? with
      | none => (some .null_pointer, ep)
      | some _ =>
        completion_loop events n (i + 1)
          { ep with iocb_list := e.obj :: ep.iocb_list,
                    comp_cb_calls := ep.comp_cb_calls ++ [(e.res, e.data)] }

/-- The method `process_completions(fd, cookie, event)`, lines 72-101, with the
constant `MAX_COMPLETIONS` (drive_endpoint.hpp is not part of the source tree)
as the parameter `max_completions` and the kernel's answer to the poll as
`ans`.  The latency counters and the final `read` of the eventfd are not
modelled.  The result is the fault raised, if any, and the state afterwards. -/
def process_completions (max_completions : Nat) (ep : DriveEndPoint) (fd : Int)
    (ans : KernelAnswer) : Option Fault × DriveEndPoint :=
  -- assert(fd == ev_fd)
  if fd ≠ ep.ev_fd then (some .assert_failed, ep)
  else
    let g := io_getevents ep.in_flight max_completions ans
    let ret := g.1
    let ep1 := { ep with in_flight := g.2.2 }
    let ep2 := if ret = 0 then { ep1 with spurious_events := ep1.spurious_events + 1 } else ep1
    let ep3 := if ret < 0 then { ep2 with cmp_err := ep2.cmp_err + 1 } else ep2
    completion_loop g.2.1 ret.toNat 0 ep3

/-! ## Further concrete scenarios -/

/-- Hints without preference. -/
def hints0 : blk_alloc_hints :=
  { desired_temp := 0, dev_id_hint := -1, can_look_for_other_dev := true }

/-- `B16` cached as two pieces: block 0, and blocks 1 to 15. -/
def st_head : BlkStore :=
  { m_cache := ⟨[(B16, 0)]⟩, m_cache_type := .WRITETHRU_CACHE,
    objs := [{ key := B16,
               memvec := [{ ptr := some (.heap 0), size := 8192, offset := 0 },
                          { ptr := some (.heap 1), size := 122880, offset := 8192 }] }],
    heap := [8192, 122880], enomem_at := [], vdev_calls := [] }

/-- A prepared control block as `malloc` may leave it. -/
def iocb0 : iocb_info :=
  { opcode := .pread, fildes := 0, nbytes := 0, offset := 0, data := 0, resfd := 0,
    is_read := false }

/-- An end point with two free control blocks and nothing in flight. -/
def ep0 : DriveEndPoint :=
  { ev_fd := 5, iocb_list := [0, 1], iocbs := [iocb0, iocb0], in_flight := [],
    comp_cb_calls := [], spurious_events := 0, cmp_err := 0, total_write_ios := 0,
    total_read_ios := 0 }

/-- `B16` cached as one piece holding its first fourteen blocks. -/
def st_14 : BlkStore :=
  { m_cache := ⟨[]⟩, m_cache_type := .WRITETHRU_CACHE,
    objs := [{ key := B16, memvec := [{ ptr := some (.heap 0), size := 114688, offset := 0 }] }],
    heap := [114688], enomem_at := [], vdev_calls := [] }

/-! ## Head of the free list of the fixed allocator (blk_allocator.h lines 129-167) -/

/-- The object representation of an unsigned integer in `k` bytes on a little-endian
machine: the least significant byte comes first. -/
def le_bytes (x : Nat) : Nat → List Nat
  | 0 => []
  | k + 1 => x % 256 :: le_bytes (x / 256) k

/-- The unsigned integer whose little-endian object representation is `bs`. -/
def le_value : List Nat → Nat
  | [] => 0
  | b :: bs => b + 256 * le_value bs

/-- The struct `__top_blk`.  Its only member is the packed `struct blob` of two
`uint32_t` fields, `gen` at byte 0 and `top_blk_id` at byte 4; `b` lists the
eight bytes of that member. -/
structure __top_blk where
  b : List Nat
deriving DecidableEq, Repr

/-- The constructor `__top_blk(uint64_t id)`, line 135: `memcpy(&b, &id, sizeof(uint64_t))`. -/
def __top_blk.of_integer (id : Nat) : __top_blk := ⟨le_bytes id 8⟩

/-- The constructor `__top_blk(uint32_t gen, uint32_t blk_id)`, lines 139-142. -/
def __top_blk.of_pair (gen blk_id : Nat) : __top_blk := ⟨le_bytes gen 4 ++ le_bytes blk_id 4⟩

/-- The method `to_integer()`, lines 144-148: `memcpy(&x, &b, sizeof(uint64_t))`. -/
def __top_blk.to_integer (t : __top_blk) : Nat := le_value (t.b.take 8)

/-- The method `get_gen()`, line 150: the field `b.gen`. -/
def __top_blk.get_gen (t : __top_blk) : Nat := le_value (t.b.take 4)

/-- The method `get_top_blk_id()`, line 154: the field `b.top_blk_id`. -/
def __top_blk.get_top_blk_id (t : __top_blk) : Nat := le_value ((t.b.drop 4).take 4)

/-! ## Thread start and synchronous calls of the drive end point (drive_endpoint.cpp) -/

/-- The thread-local state before `init_local`, lines 34-37: `ev_fd` is 0 and the
stack of control blocks is empty. -/
def ep_start : DriveEndPoint :=
  { ev_fd := 0, iocb_list := [], iocbs := [], in_flight := [], comp_cb_calls := [],
    spurious_events := 0, cmp_err := 0, total_write_ios := 0, total_read_ios := 0 }

/-- The loop of lines 66-69, `n` rounds: a control block is allocated and pushed on
the stack. -/
def init_local_loop : Nat → DriveEndPoint → DriveEndPoint
  | 0, ep => ep
  | n + 1, ep =>
    init_local_loop n
      { ep with iocbs := ep.iocbs ++ [iocb0], iocb_list := ep.iocbs.length :: ep.iocb_list }

/-- The method `init_local()`, lines 58-70, with the constant `MAX_OUTSTANDING_IO`
(drive_endpoint.hpp is not part of the source tree) as the parameter
`max_outstanding_io` and the descriptor returned by `eventfd` as `new_ev_fd`.
`io_setup` opens a kernel context that holds no request. -/
def init_local (ep : DriveEndPoint) (max_outstanding_io : Nat) (new_ev_fd : Int) :
    DriveEndPoint :=
  init_local_loop max_outstanding_io { ep with ev_fd := new_ev_fd, in_flight := [] }

/-- The test `written_size != size` of the four `sync_*` methods: `done` is the
`ssize_t` returned by the system call and `size` the `uint32_t` argument, which
the comparison converts to the 64-bit signed type. -/
def sync_check (done : Int) (size : Nat) : Option Fault :=
  if done ≠ ((size % U32 : Nat) : Int) then some .system_error else none

/-- The method `sync_write`, lines 197-208; `pwrite_ret` is the value returned by
`pwrite`.  The descriptor, the buffer and the offset only reach the system
call and are not modelled.  The result is the fault raised, if any. -/
def sync_write (size : Nat) (pwrite_ret : Int) : Option Fault :=
  sync_check pwrite_ret size

/-- The method `sync_writev`, lines 210-221; `pwritev_ret` is the value returned by
`pwritev`. -/
def sync_writev (size : Nat) (pwritev_ret : Int) : Option Fault :=
  sync_check pwritev_ret size

/-- The method `sync_read`, lines 223-235; `pread_ret` is the value returned by
`pread`. -/
def sync_read (size : Nat) (pread_ret : Int) : Option Fault :=
  sync_check pread_ret size

/-- The method `sync_readv`, lines 237-248; `preadv_ret` is the value returned by
`preadv`. -/
def sync_readv (size : Nat) (preadv_ret : Int) : Option Fault :=
  sync_check preadv_ret size

/-! ## Key generation of the load generator (vdev_key_spec.hpp lines 26-54) -/

/-- The default argument `uint64_t lba = -1U` of `write`, line 281. -/
def write_default_lba : Nat := U32 - 1

/-- The default argument `uint32_t nlbas = -1U` of `write`, line 281. -/
def write_default_nlbas : Nat := U32 - 1

/-- The default argument `uint64_t lba = -1` of `read`, line 317: the `int` -1
converted to `uint64_t`. -/
def read_default_lba : Nat := U64 - 1

/-- The default argument `uint64_t nlbas = -1U` of `read`, line 317. -/
def read_default_nlbas : Nat := U32 - 1

/-- The remainder `rand() % d` for a `uint64_t` divisor. -/
def rand_mod (rand d : Nat) : Except Fault Nat :=
  if d = 0 then .error .division_by_zero else .ok (rand % d)

/-- Lines 287-292 of `SimpleTestStore::write`: the values of `lba` and `nlbas` handed
to `set_bits`.  `page_size` is the value of `get_page_size`, `rand_nlbas` and
`rand_lba` are the values `rand()` returns in line 289 and in line 292.  `-1U`
is the `unsigned int` 2^32 - 1; `nlbas` is a `uint32_t`. -/
def SimpleTestStore.write_range (m_max_io_size page_size max_vol_blks : Nat) (lba nlbas : Nat)
    (rand_nlbas rand_lba : Nat) : Except Fault (Nat × Nat) := do
  let nlbas ← if nlbas = U32 - 1 then do
      if page_size = 0 then throw Fault.division_by_zero
      let max_blks := m_max_io_size / page_size
      let n ← rand_mod rand_nlbas max_blks
      let n := n % U32
      pure (if n = 0 then 1 else n)
    else pure nlbas
  let lba ← if lba = U32 - 1 then rand_mod rand_lba (u64_sub max_vol_blks nlbas) else pure lba
  pure (lba, nlbas)

/-- Lines 324-331 of `SimpleTestStore::read`: the values of `lba` and `nlbas` handed
to `get_next_contiguous_n_reset_bits`.  `rand_nlbas` and `rand_lba` are the
values `rand()` returns in line 326 and in line 328; `lba` and `nlbas` are
`uint64_t`. -/
def SimpleTestStore.read_range (m_max_io_size page_size max_vol_blks : Nat) (lba nlbas : Nat)
    (rand_nlbas rand_lba : Nat) : Except Fault (Nat × Nat) := do
  let nlbas ← if nlbas = U32 - 1 then do
      if page_size = 0 then throw Fault.division_by_zero
      let max_blks := m_max_io_size / page_size
      let n ← rand_mod rand_nlbas max_blks
      pure ((n + 1) % U64)
    else pure nlbas
  let lba ← if lba = U32 - 1 then rand_mod rand_lba (u64_sub max_vol_blks nlbas) else pure lba
  pure (lba, nlbas)

/-- A journal device of 65536 bytes on which 70000 bytes are counted as written. -/
def jd_over : JournalVirtualDev :=
  { m_write_sz_in_total := 70000, m_reserved_sz := 0, size := 65536, block_size := 512 }

/-! ## Theorems -/

/-! ### Block identifiers -/

/-- The constructor keeps arguments that fit their fields. -/
theorem BlkId.make_eq (id nblks chunk : Nat) (hi : id < U32) (hn : nblks < U8)
    (hc : chunk < U16) : BlkId.make id nblks chunk = ⟨id, nblks, chunk⟩ := by
  simp only [BlkId.make, Nat.mod_eq_of_lt hi, Nat.mod_eq_of_lt hn, Nat.mod_eq_of_lt hc]

/-! ### Full free -/

/-- C2: when `blk_offset` is absent or 0 and `nblks` is absent or equal to `B.nblks`,
`free_blk` erases `B` from the cache, issues exactly one virtual-device free
whose argument is `B` itself, inserts nothing into the cache (every entry left
was there before, and none is left for `B`), and returns none. -/
theorem free_blk_full_free (ops : MemVecOps) (s : BlkStore) (bid : BlkId)
    (blkoffset nblks : Option Nat)
    (hoff : blkoffset = none ∨ blkoffset = some 0)
    (hn : nblks = none ∨ nblks = some bid.nblks) :
    ∃ s1 : BlkStore,
      free_blk ops s bid blkoffset nblks = .ok (none, s1) ∧
      s1.m_cache.entries = s.m_cache.entries.filter (fun e => e.1 ≠ bid) ∧
      s1.m_cache.get bid = none ∧
      (∀ e ∈ s1.m_cache.entries, e ∈ s.m_cache.entries) ∧
      s1.vdev_calls = s.vdev_calls ++ [VdevCall.free_blk bid] ∧
      s1.objs = s.objs ∧ s1.heap = s.heap := by
  have h0 : blkoffset.getD 0 = 0 := by
    rcases hoff with h | h <;> simp [h]
  refine ⟨{ s with m_cache := ⟨s.m_cache.entries.filter (fun e => e.1 ≠ bid)⟩,
                   vdev_calls := s.vdev_calls ++ [.free_blk bid] }, ?_, rfl, ?_, ?_, rfl, rfl, rfl⟩
  · simp [free_blk, h0, hn, Cache.erase, BlkStore.vdev]
  · simp [Cache.get, List.find?_eq_none]
  · intro e he
    exact (List.mem_filter.mp he).1

/-- C2 witness: the full free of the resident 16-block run, with both optional
arguments absent. -/
theorem free_blk_full_free_witness :
    ∃ s1 : BlkStore,
      free_blk refOps st_full B16 none none = .ok (none, s1) ∧
      s1.m_cache.entries = st_full.m_cache.entries.filter (fun e => e.1 ≠ B16) ∧
      s1.m_cache.get B16 = none ∧
      (∀ e ∈ s1.m_cache.entries, e ∈ st_full.m_cache.entries) ∧
      s1.vdev_calls = st_full.vdev_calls ++ [VdevCall.free_blk B16] ∧
      s1.objs = st_full.objs ∧ s1.heap = st_full.heap :=
  free_blk_full_free refOps st_full B16 none none (Or.inl rfl) (Or.inl rfl)

/-! ### Partial free -/

/-- The loop of lines 126-132 writes through `ret_arr->at(i)`; with `ret_arr` empty
every round ends in a fault. -/
theorem free_blk_add_split_empty (s : BlkStore) (bbufs : Option Nat × Option Nat) (i : Nat) :
    ∃ f, free_blk_add_split s bbufs none i = .error f := by
  unfold free_blk_add_split
  cases hsel : (if i = 0 then bbufs.1 else bbufs.2) with
  | none => exact ⟨_, rfl⟩
  | some h =>
    cases hd : s.deref h with
    | error e => exact ⟨e, by simp [hd, bind, Except.bind, pure, Except.pure]⟩
    | ok b =>
      exact ⟨.optional_empty, by
        simp [hd, bind, Except.bind, pure, Except.pure, throw, throwThe, MonadExceptOf.throw]⟩

/-- C1: scenario 3 of the spec evaluated on the code.  `B16` is resident with all 16
blocks cached; `free_blk(B16, 4, 8)` frees blocks 4 to 11 (from = 4, to = 12,
8 < 80% of 16).  The call ends in a fault on the empty optional `ret_arr` and
returns no identifiers. -/
theorem free_blk_scenario3_faults :
    st_full.m_cache.get B16 = some 0 ∧ 0 < 4 ∧ 4 < 12 ∧ 12 < B16.nblks ∧
    5 * (12 - 4) < 4 * B16.nblks ∧
    free_blk refOps st_full B16 (some 4) (some (12 - 4)) = .error .optional_empty :=
  ⟨rfl, by decide, by decide, by decide, by decide, rfl⟩

/-- C3: the device free issued by a partial free names `B.nblks` blocks, not the
`n` blocks requested.  For `B16` not resident, `free_blk(B16, 4, 8)` frees
(4, 16, 0); for `B16` resident, `free_blk(B16, 1, 14)` frees (1, 16, 0). -/
theorem free_blk_device_free_range :
    4 + 8 ≤ B16.nblks ∧ 1 + 14 ≤ B16.nblks ∧
    free_blk refOps st_empty B16 (some 4) (some 8)
      = .ok (none, { st_empty with vdev_calls := [VdevCall.free_blk ⟨4, 16, 0⟩] }) ∧
    free_blk refOps st_full B16 (some 1) (some 14)
      = .ok (none, { st_full with m_cache := ⟨[]⟩,
                                  vdev_calls := [VdevCall.free_blk ⟨1, 16, 0⟩] }) :=
  ⟨by decide, by decide, rfl, rfl⟩

/-- C4: for a partial free `free_blk(B, off, n)` of a cache-resident `B`: when
`5 * n < 4 * B.nblks` the call ends in a fault (no residual entry is ever
inserted and nothing is returned); when `n` is at least 80% of `B.nblks` the
entry for `B` is erased, nothing is inserted, the device free is issued and the
result is none.  The device free is for the identifier built from
(B.id + off, B.nblks, B.chunk), which is that triple for a `B` with fields
inside their widths and `B.id + off` below 2^32. -/
theorem free_blk_partial_resident (ops : MemVecOps) (s : BlkStore) (bid : BlkId) (off n h : Nat)
    (hres : s.m_cache.get bid = some h)
    (hpart : ¬ (off = 0 ∧ n = bid.nblks)) :
    (5 * n < 4 * bid.nblks → ∃ f, free_blk ops s bid (some off) (some n) = .error f) ∧
    (¬ 5 * n < 4 * bid.nblks →
      free_blk ops s bid (some off) (some n) =
        .ok (none, { s with m_cache := ⟨s.m_cache.entries.filter (fun e => e.1 ≠ bid)⟩,
                            vdev_calls := s.vdev_calls ++
                              [VdevCall.free_blk
                                (BlkId.make (bid.id + off) bid.nblks bid.chunk)] })) ∧
    (bid.wf → bid.id + off < U32 →
      BlkId.make (bid.id + off) bid.nblks bid.chunk = ⟨bid.id + off, bid.nblks, bid.chunk⟩) := by
  have hcond : ¬ ((some off).getD 0 = 0 ∧
      ((some n : Option Nat) = none ∨ some n = some bid.nblks)) := by
    simp only [Option.getD_some, Option.some.injEq, false_or, reduceCtorEq]
    exact hpart
  refine ⟨?_, ?_, fun hw hid => BlkId.make_eq _ _ _ hid hw.2.1 hw.2.2⟩
  · intro hlt
    unfold free_blk
    simp only [hcond, if_false, Cache.erase, hres, optional_get, hlt, if_true, bind,
      Except.bind, pure, Except.pure]
    cases hp : free_partial_cache ops
        { s with m_cache := ⟨s.m_cache.entries.filter (fun e => e.1 ≠ bid)⟩ } h
        ((some off).getD 0) (((some off).getD 0 + (some n).getD bid.nblks) % U8) with
    | error e => exact ⟨e, by simp [hp]⟩
    | ok r =>
      obtain ⟨f, hf⟩ := free_blk_add_split_empty r.2 r.1 0
      exact ⟨f, by simp [hp, hf]⟩
  · intro hge
    unfold free_blk
    simp [hcond, Cache.erase, hres, optional_get, hge, bind, Except.bind, pure, Except.pure,
      BlkStore.vdev]
    intro h1 h2
    exact absurd ⟨h1, h2⟩ hpart

/-- C4 witness: `B16` resident; freeing 8 blocks at offset 4 faults, freeing 14
blocks at offset 1 erases the entry and returns none. -/
theorem free_blk_partial_resident_witness :
    (∃ f, free_blk refOps st_full B16 (some 4) (some 8) = .error f) ∧
    free_blk refOps st_full B16 (some 1) (some 14) =
      .ok (none, { st_full with
                     m_cache := ⟨st_full.m_cache.entries.filter (fun e => e.1 ≠ B16)⟩,
                     vdev_calls := st_full.vdev_calls ++
                       [VdevCall.free_blk ⟨B16.id + 1, B16.nblks, B16.chunk⟩] }) :=
  ⟨(free_blk_partial_resident refOps st_full B16 4 8 0 rfl (by decide)).1 (by decide),
   (free_blk_partial_resident refOps st_full B16 1 14 0 rfl (by decide)).2.1 (by decide)⟩

/-! ### Right-hand side processing for any `find_index` -/

theorem get_nth_piece_ok (mvec : MemVector) (i : Nat) (h : i < mvec.length) :
    get_nth_piece mvec (i : Int) = .ok (mvec[i]) := by
  unfold get_nth_piece
  have : ¬ ((i : Int) < 0) := by omega
  simp [this, h]

/-- The copy loop over a range inside the vector yields that range. -/
theorem copy_pieces_eq (mvec : MemVector) :
    ∀ (n i : Nat), i + n ≤ mvec.length →
      copy_pieces mvec (i : Int) n = .ok ((mvec.drop i).take n) := by
  intro n
  induction n with
  | zero => intro i _; simp [copy_pieces]
  | succ n ih =>
    intro i hi
    have hlt : i < mvec.length := by omega
    unfold copy_pieces
    have hnext : ((i : Int) + 1) = ((i + 1 : Nat) : Int) := by push_cast; ring
    rw [get_nth_piece_ok mvec i hlt, hnext]
    simp only [bind, Except.bind, ih (i + 1) (by omega), pure, Except.pure]
    rw [List.drop_eq_getElem_cons hlt, List.take_succ_cons]

/-- Whatever `find_index` is: when it reports index `r` for `to_offset`, and the
copy branch of lines 289-300 is not taken (the indices differ, or the residual
is 0 or above the threshold), the right residual is the vector from piece `r`
on, with piece `r` kept whole. -/
theorem free_partial_right_whole_piece (ops : MemVecOps) (s : BlkStore) (mvec : MemVector)
    (left_ind : Int) (to_offset r : Nat)
    (hr : (ops.find_index mvec to_offset).2 = (r : Int)) (hlt : r < mvec.length)
    (hskip : ¬ (left_ind = (r : Int) ∧
      u32_sub ((mvec[r].offset + mvec[r].size) % U32) to_offset ≠ 0 ∧
      u32_sub ((mvec[r].offset + mvec[r].size) % U32) to_offset ≤ CACHE_DISCARD_THRESHOLD_SIZE)) :
    free_partial_right ops s mvec left_ind to_offset = .ok (mvec.drop r, s) ∧
    mvec[r] ∈ mvec.drop r := by
  have hcount : ((mvec.length : Int) - (r : Int)).toNat = mvec.length - r := by omega
  have htail : copy_pieces mvec (r : Int) (mvec.length - r) = .ok (mvec.drop r) := by
    rw [copy_pieces_eq mvec (mvec.length - r) r (by omega)]
    simp
  constructor
  · unfold free_partial_right
    simp only [hr, hcount, htail]
    by_cases hl : left_ind = (r : Int)
    · simp only [hl, if_true, get_nth_piece_ok mvec r hlt]
      have hsz : ¬ (u32_sub ((mvec[r].offset + mvec[r].size) % U32) to_offset ≠ 0 ∧
          u32_sub ((mvec[r].offset + mvec[r].size) % U32) to_offset
            ≤ CACHE_DISCARD_THRESHOLD_SIZE) := fun h => hskip ⟨hl, h⟩
      simp [hsz]
    · simp [hl]
  · rw [List.drop_eq_getElem_cons hlt]
    exact List.mem_cons_self _ _

/-! ### Partial-range invalidation on concrete vectors -/

/-- C5: `B16` cached as two pieces, blocks 0 to 7 and blocks 8 to 13; blocks 4 to 11
are freed (from = 4, to = 12).  The piece that straddles the right boundary has
a residual of 16384 bytes, yet the right residual buffer keeps that piece whole:
it still covers byte 8 * 8192 of the freed range [4 * 8192, 12 * 8192). -/
theorem free_partial_cache_keeps_freed_bytes :
    free_partial_cache refOps { st_two with m_cache := ⟨[]⟩ } 0 4 12 =
      .ok ((some 0, some 1),
        { st_two with
            m_cache := ⟨[]⟩,
            objs := [{ key := ⟨0, 4, 0⟩,
                       memvec := [{ ptr := some (.heap 0), size := 32768, offset := 0 }] },
                     { key := ⟨12, 4, 0⟩,
                       memvec := [{ ptr := some (.heap 1), size := 49152, offset := 65536 }] }] }) ∧
    4 * BLKSTORE_BLK_SIZE ≤ 8 * BLKSTORE_BLK_SIZE ∧
    8 * BLKSTORE_BLK_SIZE < 12 * BLKSTORE_BLK_SIZE ∧
    covers_byte [{ ptr := some (.heap 1), size := 49152, offset := 65536 }]
      (8 * BLKSTORE_BLK_SIZE) = true :=
  ⟨rfl, by decide, by decide, by decide⟩

/-- C6: `B16` cached as one piece of 16 blocks; blocks 4 to 11 are freed.  The piece
straddles `to_offset` = 12 * 8192 with residual sz = 32768 > 16384, and the
right-hand side processing still puts the whole piece into the right residual,
which therefore covers [to_offset, piece_end). -/
theorem free_partial_right_keeps_large_residual :
    refOps.find_index [piece_full] (4 * BLKSTORE_BLK_SIZE) = (true, 0) ∧
    refOps.find_index [piece_full] (12 * BLKSTORE_BLK_SIZE) = (true, 0) ∧
    u32_sub ((piece_full.offset + piece_full.size) % U32) (12 * BLKSTORE_BLK_SIZE) = 32768 ∧
    CACHE_DISCARD_THRESHOLD_SIZE < 32768 ∧
    free_partial_right refOps { st_full with m_cache := ⟨[]⟩ } [piece_full] 0
        (12 * BLKSTORE_BLK_SIZE)
      = .ok ([piece_full], { st_full with m_cache := ⟨[]⟩ }) ∧
    free_partial_cache refOps { st_full with m_cache := ⟨[]⟩ } 0 4 12 =
      .ok ((some 0, some 1),
        { st_full with
            m_cache := ⟨[]⟩,
            objs := [{ key := ⟨0, 4, 0⟩,
                       memvec := [{ ptr := some (.heap 0), size := 32768, offset := 0 }] },
                     { key := ⟨12, 4, 0⟩, memvec := [piece_full] }] }) ∧
    covers_byte [piece_full] (12 * BLKSTORE_BLK_SIZE) = true :=
  ⟨rfl, rfl, rfl, by decide, rfl, rfl, by decide⟩

/-! ### Entry assertions of `read` -/

/-- C8 counterexample: offset = 256 * BLKSTORE_BLK_SIZE and size = 0 are multiples of
the block size with offset + size ≤ 256 * BLKSTORE_BLK_SIZE, and the second
assertion (`offset < 256 * BLKSTORE_BLK_SIZE`) fails, so `read` aborts. -/
theorem read_asserts_fail_at_limit :
    (256 * BLKSTORE_BLK_SIZE) % BLKSTORE_BLK_SIZE = 0 ∧ 0 % BLKSTORE_BLK_SIZE = 0 ∧
    256 * BLKSTORE_BLK_SIZE < U32 ∧
    256 * BLKSTORE_BLK_SIZE + 0 ≤ 256 * BLKSTORE_BLK_SIZE ∧
    read_asserts (256 * BLKSTORE_BLK_SIZE) 0 = [true, false, true, true] ∧
    read refOps 1 st_full B16 (256 * BLKSTORE_BLK_SIZE) 0 none = some (.error .assert_failed) :=
  ⟨by decide, by decide, by decide, by decide, by decide, rfl⟩

/-- C8 (amended): for offset and size that are multiples of BLKSTORE_BLK_SIZE with
offset + size ≤ 256 * BLKSTORE_BLK_SIZE and offset < 256 * BLKSTORE_BLK_SIZE,
all four entry assertions of `read` hold. -/
theorem read_asserts_hold (offset size : Nat)
    (ho : offset % BLKSTORE_BLK_SIZE = 0) (hs : size % BLKSTORE_BLK_SIZE = 0)
    (hsum : offset + size ≤ 256 * BLKSTORE_BLK_SIZE)
    (hlt : offset < 256 * BLKSTORE_BLK_SIZE) :
    read_asserts offset size = [true, true, true, true] := by
  have h1 : (offset + size) % U32 ≤ 256 * BLKSTORE_BLK_SIZE := by
    have : offset + size < U32 := by
      simp only [BLKSTORE_BLK_SIZE, U32] at *; omega
    rw [Nat.mod_eq_of_lt this]; exact hsum
  simp [read_asserts, h1, hlt, ho, hs]

/-- C8 witness: offset = 8192, size = 8192. -/
theorem read_asserts_hold_witness :
    read_asserts 8192 8192 = [true, true, true, true] :=
  read_asserts_hold 8192 8192 (by decide) (by decide) (by decide) (by decide)

/-! ### Buffer-table lemmas -/

theorem deref_ok_iff (s : BlkStore) (h : Nat) (b : Buffer) :
    s.deref h = .ok b ↔ s.objs[h]? = some b := by
  unfold BlkStore.deref
  cases hx : s.objs[h]? <;> simp

theorem deref_lt (s : BlkStore) (h : Nat) (b : Buffer) (hd : s.deref h = .ok b) :
    h < s.objs.length := by
  rw [deref_ok_iff] at hd
  exact (List.getElem?_eq_some_iff.mp hd).1

theorem deref_of_lt (s : BlkStore) (h : Nat) (hl : h < s.objs.length) :
    ∃ b, s.deref h = .ok b := by
  refine ⟨s.objs[h], ?_⟩
  rw [deref_ok_iff]
  exact List.getElem?_eq_getElem hl

theorem deref_set_obj (s : BlkStore) (h : Nat) (b : Buffer) (hl : h < s.objs.length) :
    (s.set_obj h b).deref h = .ok b := by
  rw [deref_ok_iff]
  simp [BlkStore.set_obj, hl]

/-- The reference `fill_next_missing_piece` meets the contract `FillAdvances` with
the limit of 256 blocks. -/
theorem refOps_fill_advances : FillAdvances refOps (256 * BLKSTORE_BLK_SIZE) := by
  intro mvec c size offset pre mp post c1 h
  simp only [refOps, ref_fill_next_missing_piece] at h
  split at h
  · rename_i hc
    simp only [Option.some.injEq, Prod.mk.injEq] at h
    obtain ⟨_, h2, _, _⟩ := h
    obtain ⟨ha, hb, hcw, _⟩ := hc
    rw [← h2]
    simp only
    have hw : min (c.getD (offset + size)) (256 * BLKSTORE_BLK_SIZE) ≤ 256 * BLKSTORE_BLK_SIZE :=
      Nat.min_le_right _ _
    omega
  · cases h

theorem cache_count_zero_of_get_none (c : Cache) (k : BlkId) (h : c.get k = none) :
    c.count k = 0 := by
  unfold Cache.get at h
  unfold Cache.count
  simp only [Option.map_eq_none', List.find?_eq_none] at h
  simp only [List.length_eq_zero, List.filter_eq_nil_iff]
  exact h

theorem cache_count_pos_of_get_some (c : Cache) (k : BlkId) (b : Nat) (h : c.get k = some b) :
    0 < c.count k := by
  by_contra hne
  have h0 : c.count k = 0 := by omega
  unfold Cache.count at h0
  simp only [List.length_eq_zero, List.filter_eq_nil_iff] at h0
  unfold Cache.get at h
  have : c.entries.find? (fun e => decide (e.1 = k)) = none := by
    rw [List.find?_eq_none]; exact h0
  rw [this] at h
  cases h

theorem cache_insert_new (c : Cache) (k : BlkId) (b : Nat) (h : c.get k = none) :
    c.insert k b = (true, b, ⟨(k, b) :: c.entries⟩) := by
  simp [Cache.insert, h]

theorem cache_insert_existing (c : Cache) (k : BlkId) (b e : Nat) (h : c.get k = some e) :
    c.insert k b = (false, e, c) := by
  simp [Cache.insert, h]

theorem cache_get_cons_self (l : List (BlkId × Nat)) (k : BlkId) (b : Nat) :
    (Cache.mk ((k, b) :: l)).get k = some b := by
  simp [Cache.get]

theorem cache_count_cons_self (l : List (BlkId × Nat)) (k : BlkId) (b : Nat) :
    (Cache.mk ((k, b) :: l)).count k = (Cache.mk l).count k + 1 := by
  simp [Cache.count]

/-! ### `write` -/

/-- The loop of `read` ends normally when `fill_next_missing_piece` advances below
`limit`, no allocation fails and the budget exceeds what is left below `limit`;
it leaves the cache index alone and keeps the key of the buffer. -/
theorem read_loop_done (ops : MemVecOps) (limit : Nat) (hadv : FillAdvances ops limit)
    (hlim : limit < U32) (bid : BlkId) (bbuf size : Nat) :
    ∀ (fuel : Nat) (v : ReadVars ops) (b : Buffer), v.s.deref bbuf = .ok b →
      v.s.enomem_at = [] → limit ≤ fuel + v.cur_offset →
      ∃ (v1 : ReadVars ops) (b1 : Buffer),
        read_loop ops bid bbuf size (fuel + 1) v = (.done, v1) ∧
        v1.s.m_cache = v.s.m_cache ∧ v1.s.objs.length = v.s.objs.length ∧
        v1.s.deref bbuf = .ok b1 ∧ b1.key = b.key := by
  intro fuel
  induction fuel with
  | zero =>
    intro v b hb hmem hfuel
    unfold read_loop
    by_cases hs : v.size_to_read > 0
    · simp only [hs, if_true, hb]
      cases hf : ops.fill_next_missing_piece b.memvec v.c size v.cur_offset with
      | none => exact ⟨v, b, rfl, rfl, rfl, hb, rfl⟩
      | some r =>
        obtain ⟨pre, mp0, post, c1⟩ := r
        have := hadv _ _ _ _ _ _ _ _ hf
        omega
    · simp only [hs, if_false]
      exact ⟨v, b, rfl, rfl, rfl, hb, rfl⟩
  | succ fuel ih =>
    intro v b hb hmem hfuel
    have hl := deref_lt _ _ _ hb
    unfold read_loop
    by_cases hs : v.size_to_read > 0
    · simp only [hs, if_true, hb]
      cases hf : ops.fill_next_missing_piece b.memvec v.c size v.cur_offset with
      | none => exact ⟨v, b, rfl, rfl, rfl, hb, rfl⟩
      | some r =>
        obtain ⟨pre, mp0, post, c1⟩ := r
        have hstep := hadv _ _ _ _ _ _ _ _ hf
        simp only [BlkStore.posix_memalign, BlkStore.set_obj, hmem, List.not_mem_nil, if_false]
        have hmod : (mp0.offset + mp0.size) % U32 = mp0.offset + mp0.size :=
          Nat.mod_eq_of_lt (by omega)
        set v2 : ReadVars ops :=
          { s := BlkStore.vdev
              { v.s with
                  objs := (v.s.objs.set bbuf { b with memvec := pre ++ [mp0] ++ post }).set bbuf
                    { b with memvec := pre ++ [{ mp0 with ptr := some (.heap v.s.heap.length) }]
                      ++ post },
                  heap := v.s.heap ++ [mp0.size] }
              (VdevCall.read
                (BlkId.make (bid.id + mp0.offset / BLKSTORE_BLK_SIZE)
                  (mp0.size / BLKSTORE_BLK_SIZE) bid.chunk)
                { mp0 with ptr := some (.heap v.s.heap.length) }),
            c := c1, cur_offset := (mp0.offset + mp0.size) % U32,
            size_to_read := u32_sub v.size_to_read mp0.size } with hv2
        have hd2 : v2.s.deref bbuf = .ok
            { b with memvec := pre ++ [{ mp0 with ptr := some (.heap v.s.heap.length) }] ++ post } := by
          rw [deref_ok_iff]
          simp [hv2, BlkStore.vdev, hl]
        obtain ⟨v1, b1, h1, h2, h3, h4, h5⟩ := ih v2 _ hd2 (by simp [hv2, BlkStore.vdev, hmem])
          (by simp only [hv2, hmod]; omega)
        refine ⟨v1, b1, ?_, ?_, ?_, h4, ?_⟩
        · simpa [hv2, hmem] using h1
        · rw [h2]; simp [hv2, BlkStore.vdev]
        · rw [h3]; simp [hv2, BlkStore.vdev]
        · rw [h5]
    · simp only [hs, if_false]
      exact ⟨v, b, rfl, rfl, rfl, hb, rfl⟩


/-- C7: `read(B, offset, size)` over the sequential cache model, for a call that
meets the entry assertions, with `fill_next_missing_piece` advancing below
`limit` (`FillAdvances`), no allocation failure and a budget above `limit`:
`read` returns a buffer `r`, and afterwards `r` is the entry the cache holds for
`B` and the cache holds exactly one entry for `B`.  If `B` was resident, `r` is
the resident buffer and the cache index is unchanged (no insert).  If `B` was
not resident and another thread inserted `e` for `B` before the final insert,
`r` is `e` and not the locally built buffer.  If `B` was not resident and no
other thread inserted, `r` is the locally built buffer, now inserted. -/
theorem read_returns_cache_entry (ops : MemVecOps) (limit fuel : Nat) (s : BlkStore)
    (bid : BlkId) (offset size : Nat) (race : Option Nat)
    (hadv : FillAdvances ops limit) (hlim : limit < U32) (hfuel : limit < fuel)
    (hpre : (read_asserts offset size).all id = true)
    (hmem : s.enomem_at = [])
    (hobj : ∀ h, s.m_cache.get bid = some h → h < s.objs.length)
    (hone : s.m_cache.count bid ≤ 1)
    (hrace : ∀ e, race = some e → e < s.objs.length) :
    ∃ (r : Nat) (s1 : BlkStore),
      read ops fuel s bid offset size race = some (.ok (r, s1)) ∧
      s1.m_cache.get bid = some r ∧ s1.m_cache.count bid = 1 ∧
      (∀ h, s.m_cache.get bid = some h → r = h ∧ s1.m_cache = s.m_cache) ∧
      (s.m_cache.get bid = none → ∀ e, race = some e →
        r = e ∧ r ≠ s.make_object.1 ∧ s1.m_cache.entries = (bid, e) :: s.m_cache.entries) ∧
      (s.m_cache.get bid = none → race = none →
        r = s.make_object.1 ∧ s1.m_cache.entries = (bid, r) :: s.m_cache.entries) := by
  obtain ⟨f, rfl⟩ : ∃ f, fuel = f + 1 := ⟨fuel - 1, by omega⟩
  unfold read
  simp only [hpre, if_true]
  cases hget : s.m_cache.get bid with
  | some h =>
    have hl := hobj h hget
    obtain ⟨b, hb⟩ := deref_of_lt s h hl
    obtain ⟨v1, b1, h1, h2, h3, h4, h5⟩ := read_loop_done ops limit hadv hlim bid h size f
      { s := s, c := ops.cursor_new, cur_offset := offset, size_to_read := size } b hb hmem
      (by show limit ≤ f + offset; omega)
    simp only [h1, Option.isNone_some, Bool.false_eq_true, if_false]
    have hc : ∀ e, (v1.s.m_cache.insert bid e).2.2 = s.m_cache := by
      intro e
      rw [h2]
      simp [cache_insert_existing s.m_cache bid e h hget]
    have hpos := cache_count_pos_of_get_some _ _ _ hget
    replace h2 : v1.s.m_cache = s.m_cache := h2
    cases race with
    | none =>
      refine ⟨h, v1.s, rfl, ?_, ?_, ?_, ?_, ?_⟩
      · rw [h2]; exact hget
      · rw [h2]; omega
      · intro h' hh; cases hh; exact ⟨rfl, h2⟩
      · intro hn; cases hn
      · intro hn; cases hn
    | some e =>
      refine ⟨h, { v1.s with m_cache := (v1.s.m_cache.insert bid e).2.2 }, rfl, ?_, ?_, ?_, ?_, ?_⟩
      · simp only [hc]; exact hget
      · simp only [hc]; omega
      · intro h' hh; cases hh; exact ⟨rfl, by simp only [hc]⟩
      · intro hn; cases hn
      · intro hn; cases hn
  | none =>
    simp only [BlkStore.make_object]
    set s0 : BlkStore := BlkStore.set_obj
      { s with objs := s.objs ++ [{ key := ⟨0, 0, 0⟩, memvec := [] }] } s.objs.length
      { key := bid, memvec := [] } with hs0
    have hd0 : s0.deref s.objs.length = .ok { key := bid, memvec := [] } := by
      apply deref_set_obj
      simp
    obtain ⟨v1, b1, h1, h2, h3, h4, h5⟩ := read_loop_done ops limit hadv hlim bid s.objs.length
      size f { s := s0, c := ops.cursor_new, cur_offset := offset, size_to_read := size } _ hd0
      (by simp [hs0, BlkStore.set_obj, hmem]) (by show limit ≤ f + offset; omega)
    have h2' : v1.s.m_cache = s.m_cache := by rw [h2]; simp [hs0, BlkStore.set_obj]
    have hk : b1.key = bid := h5
    have hzero := cache_count_zero_of_get_none _ _ hget
    simp only [h1, Option.isNone_none, if_true]
    cases race with
    | none =>
      simp only [h4, hk, h2', cache_insert_new s.m_cache bid s.objs.length hget, if_true]
      refine ⟨_, _, rfl, ?_, ?_, ?_, ?_, ?_⟩
      · exact cache_get_cons_self _ _ _
      · simp only [cache_count_cons_self]
        have : (Cache.mk s.m_cache.entries).count bid = s.m_cache.count bid := rfl
        omega
      · intro h' hh; cases hh
      · intro _ e he; cases he
      · intro _ _; exact ⟨rfl, rfl⟩
    | some e =>
      have he := hrace e rfl
      have hd1 : ({ v1.s with m_cache := ⟨(bid, e) :: s.m_cache.entries⟩ } : BlkStore).deref
          s.objs.length = .ok b1 := by
        rw [deref_ok_iff] at h4 ⊢
        exact h4
      have hins : (v1.s.m_cache.insert bid e).2.2 = ⟨(bid, e) :: s.m_cache.entries⟩ := by
        rw [h2', cache_insert_new s.m_cache bid e hget]
      simp only [hins]
      simp only [hd1, hk,
        cache_insert_existing ⟨(bid, e) :: s.m_cache.entries⟩ bid s.objs.length e
          (cache_get_cons_self _ _ _), Bool.false_eq_true, if_false]
      refine ⟨_, _, rfl, ?_, ?_, ?_, ?_, ?_⟩
      · exact cache_get_cons_self _ _ _
      · simp only [cache_count_cons_self]
        have : (Cache.mk s.m_cache.entries).count bid = s.m_cache.count bid := rfl
        omega
      · intro h' hh; cases hh
      · intro _ e' he'
        cases he'
        exact ⟨rfl, by omega, rfl⟩
      · intro _ hn; cases hn


/-- C7 witness: `B16` is not resident, the buffer object 0 is inserted for `B16` by
another thread before the final insert; `read(B16, 0, 32768)` returns object 0
and not the locally built object 1. -/
theorem read_returns_cache_entry_witness :
    ∃ (r : Nat) (s1 : BlkStore),
      read refOps 2097153 st_cold B16 0 32768 (some 0) = some (.ok (r, s1)) ∧
      s1.m_cache.get B16 = some r ∧ s1.m_cache.count B16 = 1 ∧
      r = 0 ∧ r ≠ 1 ∧ s1.m_cache.entries = [(B16, 0)] := by
  obtain ⟨r, s1, h1, h2, h3, _, h5, _⟩ :=
    read_returns_cache_entry refOps (256 * BLKSTORE_BLK_SIZE) 2097153 st_cold B16 0 32768 (some 0)
      refOps_fill_advances (by decide) (by decide) (by decide) rfl
      (fun h hh => by cases hh) (by decide)
      (fun e he => by cases he; decide)
  exact ⟨r, s1, h1, h2, h3, h5 rfl 0 rfl⟩

/-! ### `write` of a caller's buffer -/

/-- The result of `write(B, blob)` when `B` is not resident. -/
theorem write_new_entry (s : BlkStore) (bid : BlkId) (blob : Blob)
    (hnone : s.m_cache.get bid = none) :
    write s bid blob = .ok (s.objs.length,
      { s with
          m_cache := ⟨(bid, s.objs.length) :: s.m_cache.entries⟩,
          objs := s.objs ++
            [{ key := bid,
               memvec := [{ ptr := some (.caller blob.bytes), size := blob.size,
                            offset := 0 }] }],
          vdev_calls := s.vdev_calls ++ [VdevCall.write bid
            [{ ptr := some (.caller blob.bytes), size := blob.size, offset := 0 }]] }) := by
  simp [write, cache_insert_blob, BlkStore.make_object, BlkStore.set_obj, Cache.insert, hnone,
    BlkStore.deref, BlkStore.vdev]

/-- The result of `write(B, blob)` when `B` is resident. -/
theorem write_resident_fault (s : BlkStore) (bid : BlkId) (blob : Blob) (h : Nat)
    (hres : s.m_cache.get bid = some h) :
    write s bid blob = .error .assert_failed := by
  simp [write, cache_insert_blob, BlkStore.make_object, BlkStore.set_obj, Cache.insert, hres]

/-- C12 counterexample: with `WRITEBACK_CACHE` configured, `write(B16, blob)` into an
empty cache returns with the virtual-device write already issued. -/
theorem write_writeback_issues_device_write :
    write { st_empty with m_cache_type := .WRITEBACK_CACHE } B16 ⟨7, 131072⟩ =
      .ok (0,
        { st_empty with
            m_cache_type := .WRITEBACK_CACHE,
            m_cache := ⟨[(B16, 0)]⟩,
            objs := [{ key := B16,
                       memvec := [{ ptr := some (.caller 7), size := 131072, offset := 0 }] }],
            vdev_calls := [VdevCall.write B16
              [{ ptr := some (.caller 7), size := 131072, offset := 0 }]] }) :=
  rfl

/-- C12 (amended): the effect of `write(B, blob)` does not depend on the configured
cache type: changing the cache type changes nothing in the result but the
stored type, and whenever `write` returns, for any cache type, the
virtual-device write for `B` has been issued as the last device call. -/
theorem write_ignores_cache_type (s : BlkStore) (bid : BlkId) (blob : Blob)
    (t : BlkStoreCacheType) :
    write { s with m_cache_type := t } bid blob =
      (write s bid blob).map (fun p => (p.1, { p.2 with m_cache_type := t })) ∧
    (∀ (r : Nat) (s1 : BlkStore), write { s with m_cache_type := t } bid blob = .ok (r, s1) →
      ∃ mvec, s1.vdev_calls = s.vdev_calls ++ [VdevCall.write bid mvec]) := by
  cases hget : s.m_cache.get bid with
  | some h =>
    have h1 := write_resident_fault s bid blob h hget
    have h2 := write_resident_fault { s with m_cache_type := t } bid blob h hget
    refine ⟨by rw [h1, h2]; rfl, ?_⟩
    intro r s1 hw
    rw [h2] at hw
    cases hw
  | none =>
    have h1 := write_new_entry s bid blob hget
    have h2 := write_new_entry { s with m_cache_type := t } bid blob hget
    refine ⟨by rw [h1, h2]; rfl, ?_⟩
    intro r s1 hw
    rw [h2] at hw
    cases hw
    exact ⟨_, rfl⟩

/-- C12 witness: the write-back store and the write-through store give the same
result up to the stored type. -/
theorem write_ignores_cache_type_witness :
    write { st_empty with m_cache_type := .WRITEBACK_CACHE } B16 ⟨7, 131072⟩ =
      (write st_empty B16 ⟨7, 131072⟩).map
        (fun p => (p.1, { p.2 with m_cache_type := .WRITEBACK_CACHE })) :=
  (write_ignores_cache_type st_empty B16 ⟨7, 131072⟩ .WRITEBACK_CACHE).1

/-! ### Allocation -/

/-- C13: `alloc_blk_cached(nblks, hints, out_blkid)` for an 8-bit count, when the
memory allocation succeeds and the cache holds no entry for the identifier the
virtual device hands out: the call returns a new buffer whose key is the block
identifier written to `out_blkid` and whose memory vector is exactly one piece
at offset 0 of `nblks * BLKSTORE_BLK_SIZE` bytes, and afterwards that buffer is
the cache's one entry for that identifier. -/
theorem alloc_blk_cached_entry (s : BlkStore) (nblks : Nat) (hints : blk_alloc_hints)
    (vdev_out : BlkId) (hn : nblks < U8)
    (hmem : s.heap.length ∉ s.enomem_at) (hfresh : s.m_cache.get vdev_out = none) :
    ∃ s1 : BlkStore,
      alloc_blk_cached s nblks hints vdev_out = .ok (s.objs.length, vdev_out, s1) ∧
      s1.deref s.objs.length = .ok
        { key := vdev_out,
          memvec := [{ ptr := some (.heap s.heap.length), size := nblks * BLKSTORE_BLK_SIZE,
                       offset := 0 }] } ∧
      s1.m_cache.get vdev_out = some s.objs.length ∧
      s1.m_cache.count vdev_out = 1 ∧
      s1.m_cache.entries = (vdev_out, s.objs.length) :: s.m_cache.entries ∧
      s1.vdev_calls = s.vdev_calls ++ [VdevCall.alloc_blk nblks hints] := by
  have hsz : (nblks * BLKSTORE_BLK_SIZE) % U32 = nblks * BLKSTORE_BLK_SIZE := by
    apply Nat.mod_eq_of_lt
    simp only [BLKSTORE_BLK_SIZE, U32, U8] at *
    omega
  have hzero := cache_count_zero_of_get_none _ _ hfresh
  refine ⟨{ s with
      m_cache := ⟨(vdev_out, s.objs.length) :: s.m_cache.entries⟩,
      objs := s.objs ++
        [{ key := vdev_out,
           memvec := [{ ptr := some (.heap s.heap.length), size := nblks * BLKSTORE_BLK_SIZE,
                        offset := 0 }] }],
      heap := s.heap ++ [nblks * BLKSTORE_BLK_SIZE],
      vdev_calls := s.vdev_calls ++ [VdevCall.alloc_blk nblks hints] }, ?_, ?_, ?_, ?_, rfl, rfl⟩
  · simp [alloc_blk_cached, alloc_blk, BlkStore.vdev, BlkStore.make_object, BlkStore.set_obj,
      BlkStore.posix_memalign, hmem, hsz, Cache.insert, hfresh]
  · rw [deref_ok_iff]
    simp
  · exact cache_get_cons_self _ _ _
  · show (Cache.mk ((vdev_out, s.objs.length) :: s.m_cache.entries)).count vdev_out = 1
    rw [cache_count_cons_self]
    have : (Cache.mk s.m_cache.entries).count vdev_out = s.m_cache.count vdev_out := rfl
    omega

/-- C13 witness: two blocks are allocated and cached in an empty store; the virtual
device hands out (40, 2, 0). -/
theorem alloc_blk_cached_entry_witness :
    ∃ s1 : BlkStore,
      alloc_blk_cached st_empty 2 hints0 ⟨40, 2, 0⟩ = .ok (0, ⟨40, 2, 0⟩, s1) ∧
      s1.deref 0 = .ok
        { key := ⟨40, 2, 0⟩,
          memvec := [{ ptr := some (.heap 0), size := 2 * BLKSTORE_BLK_SIZE, offset := 0 }] } ∧
      s1.m_cache.get ⟨40, 2, 0⟩ = some 0 ∧
      s1.m_cache.count ⟨40, 2, 0⟩ = 1 ∧
      s1.m_cache.entries = [(⟨40, 2, 0⟩, 0)] ∧
      s1.vdev_calls = [VdevCall.alloc_blk 2 hints0] :=
  alloc_blk_cached_entry st_empty 2 hints0 ⟨40, 2, 0⟩ (by decide) (by decide) rfl

/-- C14: `alloc_blk(nblks, hints, out)` only delegates to the virtual device's
`alloc_blk` with the same arguments: the value of `out` is the one the device
wrote, the device log gains that one call, and the cache index, the buffers and
the heap are identical before and after the call. -/
theorem alloc_blk_frame (s : BlkStore) (nblks : Nat) (hints : blk_alloc_hints)
    (vdev_out : BlkId) :
    (alloc_blk s nblks hints vdev_out).1 = vdev_out ∧
    (alloc_blk s nblks hints vdev_out).2.vdev_calls =
      s.vdev_calls ++ [VdevCall.alloc_blk nblks hints] ∧
    (alloc_blk s nblks hints vdev_out).2.m_cache = s.m_cache ∧
    (alloc_blk s nblks hints vdev_out).2.objs = s.objs ∧
    (alloc_blk s nblks hints vdev_out).2.heap = s.heap ∧
    (∀ k, (alloc_blk s nblks hints vdev_out).2.m_cache.get k = s.m_cache.get k) :=
  ⟨rfl, rfl, rfl, rfl, rfl, fun _ => rfl⟩

/-- C15: `alloc_and_write(blob, hints)`, with `round_off` the number of whole blocks
that hold the blob.  For `n` that number of blocks
(`blob.size ≤ n * BLKSTORE_BLK_SIZE`, and `n` is 0 or
`(n - 1) * BLKSTORE_BLK_SIZE < blob.size`): the call asks the virtual device for
`n` blocks as an 8-bit count, then is `write(bid, blob)` on the identifier the
device handed out and returns that write's buffer; when that identifier is not
resident the result is the new buffer, cached under it, after the device calls
alloc and write. -/
theorem alloc_and_write_effect (s : BlkStore) (blob : Blob) (hints : blk_alloc_hints)
    (vdev_out : BlkId) (n : Nat)
    (hup : blob.size ≤ n * BLKSTORE_BLK_SIZE)
    (hlow : n = 0 ∨ (n - 1) * BLKSTORE_BLK_SIZE < blob.size) :
    alloc_and_write s blob hints vdev_out =
      write (s.vdev (.alloc_blk (n % U8) hints)) vdev_out blob ∧
    (s.m_cache.get vdev_out = none →
      ∃ s1 : BlkStore,
        alloc_and_write s blob hints vdev_out = .ok (s.objs.length, s1) ∧
        s1.m_cache.get vdev_out = some s.objs.length ∧
        s1.vdev_calls = s.vdev_calls ++
          [VdevCall.alloc_blk (n % U8) hints,
           VdevCall.write vdev_out
             [{ ptr := some (.caller blob.bytes), size := blob.size, offset := 0 }]]) := by
  have hr : round_off blob.size BLKSTORE_BLK_SIZE = n := by
    simp only [round_off, BLKSTORE_BLK_SIZE] at *
    omega
  have hfirst : alloc_and_write s blob hints vdev_out =
      write (s.vdev (.alloc_blk (n % U8) hints)) vdev_out blob := by
    simp [alloc_and_write, hr]
  refine ⟨hfirst, ?_⟩
  intro hnone
  have hnone1 : (s.vdev (.alloc_blk (n % U8) hints)).m_cache.get vdev_out = none := hnone
  have hw := write_new_entry _ vdev_out blob hnone1
  exact ⟨_, hfirst.trans hw, cache_get_cons_self _ _ _, by simp [BlkStore.vdev]⟩

/-- C15 witness: a blob of 10000 bytes needs 2 blocks. -/
theorem alloc_and_write_effect_witness :
    alloc_and_write st_empty ⟨7, 10000⟩ hints0 ⟨40, 2, 0⟩ =
      write (st_empty.vdev (.alloc_blk (2 % U8) hints0)) ⟨40, 2, 0⟩ ⟨7, 10000⟩ :=
  (alloc_and_write_effect st_empty ⟨7, 10000⟩ hints0 ⟨40, 2, 0⟩ 2 (by decide)
    (Or.inr (by decide))).1

/-! ### Journal virtual device sizes -/

/-- Wrapping subtraction is plain subtraction when nothing wraps. -/
theorem u64_sub_of_le (a b : Nat) (ha : a < U64) (hb : b ≤ a) : u64_sub a b = a - b := by
  unfold u64_sub
  show (((a : Int) - (b : Int)) % ((U64 : Nat) : Int)).toNat = a - b
  simp only [U64] at *
  omega

/-- C16: for every state of the journal virtual device (four `uint64_t` values),
`used_size()` is `m_write_sz_in_total + m_reserved_sz` in 64-bit arithmetic
(the plain sum when it fits in 64 bits), `available_size()` is
`size() - used_size()` in 64-bit arithmetic, `available_blks()` is
`available_size() / block_size()` for a non-zero block size, and
`used_size() + available_size() = size()` whenever `used_size() ≤ size()`. -/
theorem journal_vdev_sizes (d : JournalVirtualDev) (hs : d.size < U64) :
    d.used_size = (d.m_write_sz_in_total + d.m_reserved_sz) % U64 ∧
    (d.m_write_sz_in_total + d.m_reserved_sz < U64 →
      d.used_size = d.m_write_sz_in_total + d.m_reserved_sz) ∧
    d.available_size = u64_sub d.size d.used_size ∧
    (d.used_size ≤ d.size → d.available_size = d.size - d.used_size) ∧
    (d.block_size ≠ 0 → d.available_blks = .ok (d.available_size / d.block_size)) ∧
    (d.used_size ≤ d.size → d.used_size + d.available_size = d.size) := by
  have havail : d.used_size ≤ d.size → d.available_size = d.size - d.used_size := by
    intro hle
    exact u64_sub_of_le _ _ hs hle
  refine ⟨rfl, ?_, rfl, havail, ?_, ?_⟩
  · intro hsum
    exact Nat.mod_eq_of_lt hsum
  · intro hb
    simp [JournalVirtualDev.available_blks, hb]
  · intro hle
    rw [havail hle]
    omega

/-- C16 witness: 3000 bytes written, 1000 reserved, on a device of 65536 bytes with
blocks of 512 bytes. -/
theorem journal_vdev_sizes_witness :
    (⟨3000, 1000, 65536, 512⟩ : JournalVirtualDev).used_size = (3000 + 1000) % U64 ∧
    (3000 + 1000 < U64 → (⟨3000, 1000, 65536, 512⟩ : JournalVirtualDev).used_size = 3000 + 1000) ∧
    (⟨3000, 1000, 65536, 512⟩ : JournalVirtualDev).available_size =
      u64_sub 65536 (⟨3000, 1000, 65536, 512⟩ : JournalVirtualDev).used_size ∧
    ((⟨3000, 1000, 65536, 512⟩ : JournalVirtualDev).used_size ≤ 65536 →
      (⟨3000, 1000, 65536, 512⟩ : JournalVirtualDev).available_size =
        65536 - (⟨3000, 1000, 65536, 512⟩ : JournalVirtualDev).used_size) ∧
    ((512 : Nat) ≠ 0 → (⟨3000, 1000, 65536, 512⟩ : JournalVirtualDev).available_blks =
      .ok ((⟨3000, 1000, 65536, 512⟩ : JournalVirtualDev).available_size / 512)) ∧
    ((⟨3000, 1000, 65536, 512⟩ : JournalVirtualDev).used_size ≤ 65536 →
      (⟨3000, 1000, 65536, 512⟩ : JournalVirtualDev).used_size +
        (⟨3000, 1000, 65536, 512⟩ : JournalVirtualDev).available_size = 65536) :=
  journal_vdev_sizes ⟨3000, 1000, 65536, 512⟩ (by decide)

/-! ### Last lba of a volume -/

/-- C18: for a volume size of at least 1 and a physical page size `p` of at least 1,
`get_last_lba()` returns `ceil(size / p) - 1`, which is the largest lba `L`
with `L * p < size` (so `size ≤ (L + 1) * p`); on size 0 the assertion fails. -/
theorem get_last_lba_spec (size p : Nat) (hs : 1 ≤ size) (hp : 1 ≤ p) (h64 : size < U64) :
    ∃ L : Nat,
      get_last_lba size p = .ok L ∧
      L = (size + p - 1) / p - 1 ∧
      L * p < size ∧ size ≤ (L + 1) * p ∧
      (∀ M : Nat, M * p < size → M ≤ L) ∧
      get_last_lba 0 p = .error .assert_failed := by
  have hs0 : size ≠ 0 := by omega
  have hp0 : p ≠ 0 := by omega
  have hppos : 0 < p := by omega
  have hdm := Nat.div_add_mod size p
  have hmlt := Nat.mod_lt size hppos
  have hqle : size / p ≤ size := Nat.div_le_self _ _
  -- the value returned
  obtain ⟨L, hL, hlow, hup⟩ : ∃ L, get_last_lba size p = .ok L ∧ L * p < size ∧
      size ≤ (L + 1) * p := by
    by_cases hm : size % p = 0
    · have hq : p * (size / p) = size := by omega
      have hq1 : 1 ≤ size / p := by
        rcases Nat.eq_zero_or_pos (size / p) with h0 | h0
        · rw [h0] at hq; omega
        · exact h0
      have hsub : u64_sub (size / p) 1 = size / p - 1 :=
        u64_sub_of_le _ _ (by omega) hq1
      refine ⟨size / p - 1, by simp [get_last_lba, hs0, hp0, hm, hsub], ?_, ?_⟩
      · have : (size / p - 1) * p + p = size := by
          have h1 : (size / p - 1 + 1) * p = size := by
            rw [Nat.sub_add_cancel hq1, Nat.mul_comm]; exact hq
          rw [Nat.add_mul, Nat.one_mul] at h1
          exact h1
        omega
      · rw [Nat.sub_add_cancel hq1, Nat.mul_comm]
        omega
    · refine ⟨size / p, by simp [get_last_lba, hs0, hp0, hm], ?_, ?_⟩
      · rw [Nat.mul_comm]; omega
      · rw [Nat.add_mul, Nat.one_mul, Nat.mul_comm]; omega
  have hmax : ∀ M : Nat, M * p < size → M ≤ L := by
    intro M hM
    by_contra hlt
    have h1 : L + 1 ≤ M := by omega
    have h2 : (L + 1) * p ≤ M * p := Nat.mul_le_mul_right p h1
    omega
  refine ⟨L, hL, ?_, hlow, hup, hmax, by simp [get_last_lba]⟩
  have hceil : (size + p - 1) / p = L + 1 := by
    apply Nat.div_eq_of_lt_le
    · rw [Nat.add_mul, Nat.one_mul] at hup ⊢
      omega
    · have : (L + 1 + 1) * p = (L + 1) * p + p := by rw [Nat.add_mul, Nat.one_mul]
      rw [Nat.add_mul, Nat.one_mul] at hup
      rw [this, Nat.add_mul, Nat.one_mul]
      omega
  rw [hceil]
  rfl

/-- C18 witness: a volume of 8193 bytes with pages of 4096 bytes has last lba 2. -/
theorem get_last_lba_spec_witness :
    ∃ L : Nat,
      get_last_lba 8193 4096 = .ok L ∧
      L = (8193 + 4096 - 1) / 4096 - 1 ∧
      L * 4096 < 8193 ∧ 8193 ≤ (L + 1) * 4096 ∧
      (∀ M : Nat, M * 4096 < 8193 → M ≤ L) ∧
      get_last_lba 0 4096 = .error .assert_failed :=
  get_last_lba_spec 8193 4096 (by decide) (by decide) (by decide)

/-! ### Random allocation size of the load generator -/

/-- C19: for every value returned by `rand()`, `get_rand_alloc_size()` returns a
multiple of `VDEV_BLK_SIZE` in the closed range from `VDEV_BLK_SIZE` (512) to
`MAX_VDEV_ALLOC_SIZE` (8192), and both end points are attained. -/
theorem get_rand_alloc_size_range (rand : Nat) :
    get_rand_alloc_size rand % VDEV_BLK_SIZE = 0 ∧
    VDEV_BLK_SIZE ≤ get_rand_alloc_size rand ∧
    get_rand_alloc_size rand ≤ MAX_VDEV_ALLOC_SIZE ∧
    VDEV_BLK_SIZE = 512 ∧ MAX_VDEV_ALLOC_SIZE = 8192 ∧
    get_rand_alloc_size 0 = VDEV_BLK_SIZE ∧
    get_rand_alloc_size 15 = MAX_VDEV_ALLOC_SIZE := by
  refine ⟨?_, ?_, ?_, rfl, rfl, rfl, rfl⟩ <;>
    simp only [get_rand_alloc_size, VDEV_BLK_SIZE, MAX_VDEV_ALLOC_SIZE, U64] <;> omega
/-! ### Completions of the drive end point -/

/-- Every event the kernel reports belongs to a request that was in flight and
carries that request's `obj` and `data`. -/
theorem reap_mem : ∀ (n : Nat) (fl : List aio_req) (picks : List (Nat × Int)) (e : io_event),
    e ∈ (reap n fl picks).1 → ∃ r ∈ fl, e.obj = r.obj ∧ e.data = r.cb.data := by
  intro n fl picks
  induction picks generalizing n fl with
  | nil =>
    intro e he
    cases n <;> simp [reap] at he
  | cons pk rest ih =>
    intro e he
    obtain ⟨i, res⟩ := pk
    cases n with
    | zero => simp [reap] at he
    | succ n =>
      unfold reap at he
      cases hget : fl[i]? with
      | none =>
        simp only [hget] at he
        exact ih (n + 1) fl e he
      | some r =>
        simp only [hget, List.mem_cons] at he
        rcases he with he | he
        · refine ⟨r, List.getElem?_mem hget, ?_, ?_⟩ <;> simp [he]
        · obtain ⟨r2, hr2, h1, h2⟩ := ih n (fl.eraseIdx i) e he
          exact ⟨r2, List.mem_of_mem_eraseIdx hr2, h1, h2⟩

/-- The kernel reports at most `nr` events. -/
theorem reap_length_le : ∀ (n : Nat) (fl : List aio_req) (picks : List (Nat × Int)),
    (reap n fl picks).1.length ≤ n := by
  intro n fl picks
  induction picks generalizing n fl with
  | nil => cases n <;> simp [reap]
  | cons pk rest ih =>
    obtain ⟨i, res⟩ := pk
    cases n with
    | zero => simp [reap]
    | succ n =>
      unfold reap
      cases hget : fl[i]? with
      | none => simpa [hget] using ih (n + 1) fl
      | some r =>
        simp only [hget, List.length_cons]
        have := ih n (fl.eraseIdx i)
        omega

/-- The completion loop over events that name existing control blocks: every round
pushes the control block and calls the callback with the event's result and
cookie. -/
theorem completion_loop_calls (events : List io_event) :
    ∀ (n i : Nat) (ep : DriveEndPoint), i + n ≤ events.length →
      (∀ e ∈ events, e.obj < ep.iocbs.length) →
      completion_loop events n i ep =
        (none, { ep with
          iocb_list := (((events.drop i).take n).map (fun e => e.obj)).reverse ++ ep.iocb_list,
          comp_cb_calls := ep.comp_cb_calls ++
            ((events.drop i).take n).map (fun e => (e.res, e.data)) }) := by
  intro n
  induction n with
  | zero => intro i ep _ _; simp [completion_loop]
  | succ n ih =>
    intro i ep hi hwf
    have hlt : i < events.length := by omega
    have hobj : events[i].obj < ep.iocbs.length := hwf _ (List.getElem_mem hlt)
    unfold completion_loop
    simp only [List.getElem?_eq_getElem hlt, List.getElem?_eq_getElem hobj]
    rw [ih (i + 1) _ (by omega) (by simpa using hwf)]
    rw [List.drop_eq_getElem_cons hlt, List.take_succ_cons]
    simp

/-- A successful `async_*` call hands the kernel exactly one new request, whose
`data` is the cookie of the call. -/
theorem async_submit_in_flight (prep : iocb_info → iocb_info) (is_read : Bool)
    (ep ep1 : DriveEndPoint) (cookie : Nat) (ret : Int)
    (h : async_submit prep is_read ep cookie ret = (none, ep1)) :
    ∃ (info : Nat) (cb : iocb_info),
      ep1.in_flight = ep.in_flight ++ [⟨info, cb⟩] ∧ cb.data = cookie ∧
      ep.iocb_list = info :: ep1.iocb_list := by
  unfold async_submit at h
  cases hl : ep.iocb_list with
  | nil => simp [hl] at h
  | cons info rest =>
    simp only [hl] at h
    cases hcb : ep.iocbs[info]? with
    | none => simp [hcb] at h
    | some cb =>
      simp only [hcb] at h
      by_cases hret : ret ≠ 1
      · simp [hret] at h
      · simp only [hret, if_false] at h
        cases is_read <;>
          · simp only [Bool.false_eq_true, if_false, if_true, Prod.mk.injEq, true_and] at h
            subst h
            exact ⟨info, _, rfl, rfl, rfl⟩
/-- C17: one poll of `process_completions` on the end point's eventfd, requests in
flight naming existing control blocks.  For every batch of k completion events
the kernel returns (k is the value returned by the poll, at most
`MAX_COMPLETIONS`), the completion callback is called exactly k times, once per event in event order, with that
event's result and cookie; every event belongs to a request that was in flight
and carries the cookie of that request.  When the poll returns 0 or a negative
value the callback is not called.  Each of `async_write`, `async_read`,
`async_writev` and `async_readv`, when it succeeds, hands the kernel one
request whose cookie is the cookie passed to the call. -/
theorem process_completions_callbacks (max_completions : Nat) (ep : DriveEndPoint) (fd : Int)
    (hfd : fd = ep.ev_fd) (hwf : ∀ r ∈ ep.in_flight, r.obj < ep.iocbs.length) :
    (∀ picks : List (Nat × Int),
      ∃ ep1 : DriveEndPoint,
        process_completions max_completions ep fd (.completed picks) = (none, ep1) ∧
        (io_getevents ep.in_flight max_completions (.completed picks)).1 =
          ((io_getevents ep.in_flight max_completions (.completed picks)).2.1.length : Int) ∧
        (io_getevents ep.in_flight max_completions (.completed picks)).2.1.length
          ≤ max_completions ∧
        ep1.comp_cb_calls = ep.comp_cb_calls ++
          (io_getevents ep.in_flight max_completions (.completed picks)).2.1.map
            (fun e => (e.res, e.data)) ∧
        (∀ e ∈ (io_getevents ep.in_flight max_completions (.completed picks)).2.1,
          ∃ r ∈ ep.in_flight, e.obj = r.obj ∧ e.data = r.cb.data)) ∧
    (∀ ans : KernelAnswer, (io_getevents ep.in_flight max_completions ans).1 ≤ 0 →
      ∃ ep1 : DriveEndPoint,
        process_completions max_completions ep fd ans = (none, ep1) ∧
        ep1.comp_cb_calls = ep.comp_cb_calls) ∧
    (∀ (m_sync_fd : Int) (size offset cookie : Nat) (ret : Int) (ep1 : DriveEndPoint),
      (async_write ep m_sync_fd size offset cookie ret = (none, ep1) ∨
       async_read ep m_sync_fd size offset cookie ret = (none, ep1) ∨
       async_writev ep m_sync_fd size offset cookie ret = (none, ep1) ∨
       async_readv ep m_sync_fd size offset cookie ret = (none, ep1)) →
      ∃ (info : Nat) (cb : iocb_info),
        ep1.in_flight = ep.in_flight ++ [⟨info, cb⟩] ∧ cb.data = cookie) := by
  have hne : ¬ (fd ≠ ep.ev_fd) := by simp [hfd]
  refine ⟨?_, ?_, ?_⟩
  · intro picks
    set evs := (reap max_completions ep.in_flight picks).1 with hevs
    have hmem : ∀ e ∈ evs, ∃ r ∈ ep.in_flight, e.obj = r.obj ∧ e.data = r.cb.data :=
      fun e he => reap_mem max_completions ep.in_flight picks e he
    have hobj : ∀ e ∈ evs, e.obj < ep.iocbs.length := by
      intro e he
      obtain ⟨r, hr, h1, _⟩ := hmem e he
      rw [h1]; exact hwf r hr
    have hloop : ∀ ep3 : DriveEndPoint, ep3.iocbs = ep.iocbs →
        ep3.comp_cb_calls = ep.comp_cb_calls →
        ∃ ep1 : DriveEndPoint, completion_loop evs evs.length 0 ep3 = (none, ep1) ∧
          ep1.comp_cb_calls = ep.comp_cb_calls ++ evs.map (fun e => (e.res, e.data)) := by
      intro ep3 h1 h2
      refine ⟨_, completion_loop_calls evs evs.length 0 ep3 (by omega)
        (by rw [h1]; exact hobj), ?_⟩
      simp [h2]
    have hnn : ¬ ((evs.length : Int) < 0) := by omega
    have key : ∃ ep1 : DriveEndPoint,
        process_completions max_completions ep fd (.completed picks) = (none, ep1) ∧
        ep1.comp_cb_calls = ep.comp_cb_calls ++ evs.map (fun e => (e.res, e.data)) := by
      unfold process_completions
      simp only [hne, if_false, io_getevents, ← hevs, Int.toNat_ofNat, hnn]
      by_cases h0 : (evs.length : Int) = 0
      · simp only [h0, if_true]
        exact hloop
          { ep with in_flight := (reap max_completions ep.in_flight picks).2,
                    spurious_events := ep.spurious_events + 1 } rfl rfl
      · simp only [h0, if_false]
        exact hloop { ep with in_flight := (reap max_completions ep.in_flight picks).2 } rfl rfl
    obtain ⟨ep1, h1, h2⟩ := key
    exact ⟨ep1, h1, rfl, reap_length_le max_completions ep.in_flight picks, h2, hmem⟩
  · intro ans hret
    unfold process_completions
    simp only [hne, if_false]
    have htn : (io_getevents ep.in_flight max_completions ans).1.toNat = 0 := by omega
    rw [htn]
    simp only [completion_loop]
    refine ⟨_, rfl, ?_⟩
    split <;> split <;> rfl
  · intro m_sync_fd size offset cookie ret ep1 h
    rcases h with h | h | h | h <;>
      · obtain ⟨info, cb, h1, h2, _⟩ := async_submit_in_flight _ _ ep ep1 cookie ret h
        exact ⟨info, cb, h1, h2⟩

/-- C17 witness: a write with cookie 77 and a read with cookie 88 are in flight; the
kernel reports the read (result 512) and then the write (result 4096); the
callback is called with (512, 88) and then (4096, 77). -/
theorem process_completions_callbacks_witness :
    (async_write ep0 3 4096 0 77 1).1 = none ∧
    (async_read (async_write ep0 3 4096 0 77 1).2 3 512 8192 88 1).1 = none ∧
    ∃ ep1 : DriveEndPoint,
      process_completions 32 (async_read (async_write ep0 3 4096 0 77 1).2 3 512 8192 88 1).2 5
        (.completed [(1, 512), (0, 4096)]) = (none, ep1) ∧
      ep1.comp_cb_calls = [(512, 88), (4096, 77)] := by
  obtain ⟨ep1, h1, _, _, h3, _⟩ :=
    (process_completions_callbacks 32
      (async_read (async_write ep0 3 4096 0 77 1).2 3 512 8192 88 1).2 5 rfl
      (by decide)).1 [(1, 512), (0, 4096)]
  exact ⟨rfl, rfl, ep1, h1, h3⟩
/-! ### Left-hand side processing -/

/-- Whatever `find_index` is: when it reports that piece `l` overlaps `from_offset`
and the part of that piece before `from_offset` is not empty, the left residual
is the first `l - 1` pieces followed by that part; piece `l - 1` is not copied. -/
theorem free_partial_left_overlap (ops : MemVecOps) (mvec : MemVector) (from_offset l : Nat)
    (hne : from_offset ≠ 0)
    (hf : ops.find_index mvec from_offset = (true, (l : Int))) (hlt : l < mvec.length)
    (hsz : u32_sub from_offset mvec[l].offset ≠ 0) :
    free_partial_left ops mvec from_offset =
      .ok ((l : Int), mvec.take (l - 1) ++
        [{ mvec[l] with size := u32_sub from_offset mvec[l].offset }]) := by
  have hcount : ((l : Int) - 1).toNat = l - 1 := by omega
  have hcopy : copy_pieces mvec 0 (l - 1) = .ok (mvec.take (l - 1)) := by
    have := copy_pieces_eq mvec (l - 1) 0 (by omega)
    simpa using this
  unfold free_partial_left
  simp [hne, hf, hcount, hcopy, get_nth_piece_ok mvec l hlt, hsz]

/-- C20: `B16` cached as two pieces, block 0 and blocks 1 to 15; blocks 2 to 11 are
freed (from_offset = 2 * 8192).  Piece 0 ends at 8192, before the freed range,
and piece 1 straddles `from_offset`.  The left residual holds the part
[8192, 16384) of piece 1 only: piece 0 is not in it. -/
theorem free_partial_left_drops_piece :
    (0 + 8192 ≤ 2 * BLKSTORE_BLK_SIZE) ∧
    refOps.find_index
      [{ ptr := some (.heap 0), size := 8192, offset := 0 },
       { ptr := some (.heap 1), size := 122880, offset := 8192 }] (2 * BLKSTORE_BLK_SIZE)
      = (true, 1) ∧
    free_partial_left refOps
      [{ ptr := some (.heap 0), size := 8192, offset := 0 },
       { ptr := some (.heap 1), size := 122880, offset := 8192 }] (2 * BLKSTORE_BLK_SIZE)
      = .ok (1, [{ ptr := some (.heap 1), size := 8192, offset := 8192 }]) ∧
    free_partial_cache refOps { st_head with m_cache := ⟨[]⟩ } 0 2 12 =
      .ok ((some 0, some 1),
        { st_head with
            m_cache := ⟨[]⟩,
            objs := [{ key := ⟨0, 2, 0⟩,
                       memvec := [{ ptr := some (.heap 1), size := 8192, offset := 8192 }] },
                     { key := ⟨12, 4, 0⟩,
                       memvec := [{ ptr := some (.heap 1), size := 122880,
                                    offset := 8192 }] }] }) ∧
    ({ ptr := some (.heap 0), size := 8192, offset := 0 } : MemPiece) ∉
      [({ ptr := some (.heap 1), size := 8192, offset := 8192 } : MemPiece)] ∧
    covers_byte [{ ptr := some (.heap 1), size := 8192, offset := 8192 }] 0 = false :=
  ⟨by decide, rfl, rfl, rfl, by decide, by decide⟩

/-! ### One-sided partial free -/

/-- C21: `B16` is resident in one piece.  Freeing blocks 0 to 7 (only the right side
is left) and freeing blocks 8 to 15 (only the left side is left) are both
partial frees of less than 80% with one non-empty side, and both end with the
fault of reading the empty `ret_arr`; no residual entry is inserted.  In both,
`free_partial_cache` fills `bbufs[0]` only, and the round of the loop for index
1 dereferences the null `bbufs[1]` even when `ret_arr` holds an array. -/
theorem free_blk_one_sided_faults :
    free_blk refOps st_full B16 (some 0) (some 8) = .error .optional_empty ∧
    free_blk refOps st_full B16 (some 8) (some 8) = .error .optional_empty ∧
    (∃ s, free_partial_cache refOps st_cold 0 0 8 = .ok ((some 1, none), s) ∧
      free_blk_add_split s (some 1, none) (some (B16, B16)) 1 = .error .null_pointer) ∧
    (∃ s, free_partial_cache refOps st_cold 0 8 16 = .ok ((some 0, none), s) ∧
      free_blk_add_split s (some 0, none) (some (B16, B16)) 1 = .error .null_pointer) := by
  refine ⟨rfl, rfl, ⟨_, rfl, rfl⟩, ⟨_, rfl, rfl⟩⟩

/-! ### Absent optional arguments -/

/-- C22: a call of `free_blk` without `blkoffset` and with `nblks` other than the
size of the range always ends with a fault: line 136 reads `blkoffset.get()`,
if no earlier statement has failed.  A call with a non-zero `blkoffset` and
without `nblks` on a resident range ends with the fault of reading the absent
`nblks` in line 120. -/
theorem free_blk_reads_absent_optional (ops : MemVecOps) (s : BlkStore) (bid : BlkId)
    (n off h : Nat) (hn : n ≠ bid.nblks) (ho : off ≠ 0)
    (hres : (s.m_cache.erase bid).1 = some h) :
    (∃ f, free_blk ops s bid none (some n) = .error f) ∧
    free_blk ops s bid (some off) none = .error .optional_empty := by
  constructor
  · unfold free_blk
    have hfull : ¬ ((none : Option Nat).getD 0 = 0 ∧
        ((some n : Option Nat) = none ∨ (some n : Option Nat) = some bid.nblks)) := by
      simp [hn]
    rw [if_neg hfull]
    simp only [hres, optional_get, bind, Except.bind, pure, Except.pure]
    by_cases h80 : 5 * n < 4 * bid.nblks
    · rw [if_pos h80]
      generalize free_partial_cache ops { s with m_cache := (s.m_cache.erase bid).2 } h
          ((none : Option Nat).getD 0)
          ((((none : Option Nat).getD 0) + (some n).getD bid.nblks) % U8) = r
      cases r with
      | error e => exact ⟨e, rfl⟩
      | ok r =>
        obtain ⟨f, hf⟩ := free_blk_add_split_empty r.2 r.1 0
        exact ⟨f, by simp only [hf]⟩
    · rw [if_neg h80]
      exact ⟨.optional_empty, rfl⟩
  · unfold free_blk
    have hfull : ¬ ((some off : Option Nat).getD 0 = 0 ∧
        ((none : Option Nat) = none ∨ (none : Option Nat) = some bid.nblks)) := by
      simp [ho]
    rw [if_neg hfull]
    simp [hres, optional_get, bind, Except.bind]

/-- Witness for C22 on the resident range `B16`. -/
theorem free_blk_reads_absent_optional_witness :
    (∃ f, free_blk refOps st_full B16 none (some 8) = .error f) ∧
    free_blk refOps st_full B16 (some 4) none = .error .optional_empty :=
  free_blk_reads_absent_optional refOps st_full B16 8 4 0 (by decide) (by decide) rfl

/-! ### The discard threshold and the offsets of the residuals -/

/-- C23: `B16` is resident in one piece of 131072 bytes on allocation 0.  When blocks
4 to 11 are freed the piece straddles `from_offset` with a residual of 32768
bytes, more than the threshold, and the left residual keeps it; when blocks 2
to 11 are freed the residual is 16384 bytes and the left residual holds it on
allocation 0 itself, with no allocation made. -/
theorem free_partial_cache_left_ignores_threshold :
    (∃ s, free_partial_cache refOps st_cold 0 4 12 = .ok ((some 0, some 1), s) ∧
      s.objs[0]? = some { key := ⟨0, 4, 0⟩,
                          memvec := [{ ptr := some (.heap 0), size := 32768, offset := 0 }] } ∧
      CACHE_DISCARD_THRESHOLD_SIZE < 32768) ∧
    (∃ s, free_partial_cache refOps st_cold 0 2 12 = .ok ((some 0, some 1), s) ∧
      s.objs[0]? = some { key := ⟨0, 2, 0⟩,
                          memvec := [{ ptr := some (.heap 0), size := 16384, offset := 0 }] } ∧
      piece_full.ptr = some (.heap 0) ∧ s.heap = st_cold.heap) := by
  refine ⟨⟨_, rfl, rfl, by decide⟩, ⟨_, rfl, rfl, rfl, rfl⟩⟩

/-- C23, as the code has it: when piece `l` straddles a non-zero `from_offset` with a
non-empty residual `sz = from_offset - offset`, the left-hand side processing
ends the left residual with that piece cut to `sz` bytes, whatever `sz` is:
the pointer and the offset are those of the original piece. -/
theorem free_partial_left_keeps_view (ops : MemVecOps) (mvec : MemVector) (from_offset l : Nat)
    (hne : from_offset ≠ 0)
    (hf : ops.find_index mvec from_offset = (true, (l : Int))) (hlt : l < mvec.length)
    (hsz : u32_sub from_offset mvec[l].offset ≠ 0) :
    ∃ left_mvec p, free_partial_left ops mvec from_offset = .ok ((l : Int), left_mvec ++ [p]) ∧
      p.ptr = mvec[l].ptr ∧ p.offset = mvec[l].offset ∧
      p.size = u32_sub from_offset mvec[l].offset :=
  ⟨_, _, free_partial_left_overlap ops mvec from_offset l hne hf hlt hsz, rfl, rfl, rfl⟩

/-- Witness for C23 as the code has it: a piece of 131072 bytes cut at byte 32768. -/
theorem free_partial_left_keeps_view_witness :
    ∃ left_mvec p, free_partial_left refOps [piece_full] 32768 = .ok ((0 : Int), left_mvec ++ [p]) ∧
      p.ptr = piece_full.ptr ∧ p.offset = piece_full.offset ∧
      p.size = u32_sub 32768 piece_full.offset :=
  free_partial_left_keeps_view refOps [piece_full] 32768 0 (by decide) rfl (by decide) (by decide)

/-- C24: `B16` is resident in one piece holding its first fourteen blocks, and blocks
4 to 11 are freed.  The right residual has the key (12, 4, 0), an extent of
32768 bytes, and its only piece, the fresh copy of the last 16384 bytes, has
the offset 98304 = `to_offset`: it ends at byte 114688, outside the extent. -/
theorem free_partial_cache_right_offsets :
    ∃ s, free_partial_cache refOps st_14 0 4 12 = .ok ((some 0, some 1), s) ∧
      s.objs[1]? = some { key := ⟨12, 4, 0⟩,
                          memvec := [{ ptr := some (.heap 1), size := 16384, offset := 98304 }] } ∧
      ¬ (98304 + 16384 ≤ 4 * BLKSTORE_BLK_SIZE) := by
  refine ⟨_, rfl, rfl, by decide⟩

/-! ### Head of the free list -/

theorem le_bytes_length (k : Nat) : ∀ x : Nat, (le_bytes x k).length = k := by
  induction k with
  | zero => intro x; rfl
  | succ k ih => intro x; simp [le_bytes, ih]

theorem le_value_le_bytes (k : Nat) : ∀ x : Nat, le_value (le_bytes x k) = x % 256 ^ k := by
  induction k with
  | zero => intro x; simp [le_bytes, le_value, Nat.mod_one]
  | succ k ih =>
    intro x
    simp only [le_bytes, le_value, ih]
    rw [pow_succ, Nat.mul_comm (256 ^ k) 256, Nat.mod_mul]

theorem le_value_append (a : List Nat) : ∀ b : List Nat,
    le_value (a ++ b) = le_value a + 256 ^ a.length * le_value b := by
  induction a with
  | nil => intro b; simp [le_value]
  | cons x a ih =>
    intro b
    have h : le_value (x :: a ++ b) = x + 256 * le_value (a ++ b) := rfl
    rw [h, ih]
    simp only [le_value, List.length_cons, pow_succ]
    ring

theorem le_bytes_add (j : Nat) : ∀ (k x : Nat),
    le_bytes x (j + k) = le_bytes x j ++ le_bytes (x / 256 ^ j) k := by
  induction j with
  | zero => intro k x; simp [le_bytes]
  | succ j ih =>
    intro k x
    have h : j + 1 + k = (j + k) + 1 := by omega
    rw [h]
    simp only [le_bytes, ih, List.cons_append, List.cons.injEq, true_and]
    rw [Nat.div_div_eq_div_mul, pow_succ, Nat.mul_comm (256 ^ j) 256]

/-- C25: the constructors and accessors of `__top_blk` round-trip on a little-endian
layout.  For every 64-bit `x`, `__top_blk(x).to_integer()` is `x`; for 32-bit
`gen` and `blk_id`, `__top_blk(gen, blk_id)` has `get_gen() = gen` and
`get_top_blk_id() = blk_id`, its integer is `gen + 2^32 * blk_id`, and the
head rebuilt from that integer is the same head. -/
theorem top_blk_round_trip (x gen blk_id : Nat) (hx : x < U64) (hg : gen < U32)
    (hb : blk_id < U32) :
    (__top_blk.of_integer x).to_integer = x ∧
    (__top_blk.of_pair gen blk_id).get_gen = gen ∧
    (__top_blk.of_pair gen blk_id).get_top_blk_id = blk_id ∧
    (__top_blk.of_pair gen blk_id).to_integer = gen + U32 * blk_id ∧
    __top_blk.of_integer (__top_blk.of_pair gen blk_id).to_integer =
      __top_blk.of_pair gen blk_id ∧
    (__top_blk.of_integer (__top_blk.of_pair gen blk_id).to_integer).get_gen = gen ∧
    (__top_blk.of_integer (__top_blk.of_pair gen blk_id).to_integer).get_top_blk_id = blk_id := by
  have h8 : ∀ y : Nat, (le_bytes y 8).take 8 = le_bytes y 8 := by
    intro y
    rw [List.take_of_length_le]
    rw [le_bytes_length]
  have hpair8 : (le_bytes gen 4 ++ le_bytes blk_id 4).take 8 =
      le_bytes gen 4 ++ le_bytes blk_id 4 := by
    rw [List.take_of_length_le]
    simp [le_bytes_length]
  have hpair4 : (le_bytes gen 4 ++ le_bytes blk_id 4).take 4 = le_bytes gen 4 := by
    rw [List.take_append_of_le_length (by rw [le_bytes_length])]
    rw [List.take_of_length_le]
    rw [le_bytes_length]
  have hdrop4 : ((le_bytes gen 4 ++ le_bytes blk_id 4).drop 4).take 4 = le_bytes blk_id 4 := by
    rw [List.drop_append_of_le_length (by rw [le_bytes_length])]
    rw [List.drop_of_length_le (by rw [le_bytes_length]), List.nil_append]
    rw [List.take_of_length_le]
    rw [le_bytes_length]
  have hgen : le_value (le_bytes gen 4) = gen := by
    rw [le_value_le_bytes]; simp only [U32] at hg; omega
  have hblk : le_value (le_bytes blk_id 4) = blk_id := by
    rw [le_value_le_bytes]; simp only [U32] at hb; omega
  have hint : (__top_blk.of_pair gen blk_id).to_integer = gen + U32 * blk_id := by
    show le_value ((le_bytes gen 4 ++ le_bytes blk_id 4).take 8) = _
    rw [hpair8, le_value_append, hgen, hblk, le_bytes_length]
    simp [U32]
  have hback : __top_blk.of_integer (gen + U32 * blk_id) = __top_blk.of_pair gen blk_id := by
    show (⟨le_bytes (gen + U32 * blk_id) 8⟩ : __top_blk) = ⟨le_bytes gen 4 ++ le_bytes blk_id 4⟩
    have h44 : le_bytes (gen + U32 * blk_id) 8 =
        le_bytes (gen + U32 * blk_id) 4 ++ le_bytes ((gen + U32 * blk_id) / 256 ^ 4) 4 :=
      le_bytes_add 4 4 (gen + U32 * blk_id)
    have hdiv : (gen + U32 * blk_id) / 256 ^ 4 = blk_id := by
      simp only [U32] at hg ⊢
      omega
    have hlow : le_bytes (gen + U32 * blk_id) 4 = le_bytes gen 4 := by
      have e : ∀ a b : Nat, a % 256 ^ 4 = b % 256 ^ 4 → le_bytes a 4 = le_bytes b 4 := by
        intro a b hab
        simp only [le_bytes, List.cons.injEq, and_true]
        norm_num at hab
        refine ⟨?_, ?_, ?_, ?_⟩ <;> omega
      apply e
      simp only [U32]
      omega
    rw [h44, hdiv, hlow]
  refine ⟨?_, ?_, ?_, hint, ?_, ?_, ?_⟩
  · show le_value ((le_bytes x 8).take 8) = x
    rw [h8, le_value_le_bytes]
    simp only [U64] at hx
    omega
  · show le_value ((le_bytes gen 4 ++ le_bytes blk_id 4).take 4) = gen
    rw [hpair4, hgen]
  · show le_value (((le_bytes gen 4 ++ le_bytes blk_id 4).drop 4).take 4) = blk_id
    rw [hdrop4, hblk]
  · rw [hint, hback]
  · rw [hint, hback]
    show le_value ((le_bytes gen 4 ++ le_bytes blk_id 4).take 4) = gen
    rw [hpair4, hgen]
  · rw [hint, hback]
    show le_value (((le_bytes gen 4 ++ le_bytes blk_id 4).drop 4).take 4) = blk_id
    rw [hdrop4, hblk]

/-- Witness for C25: the integer 0x0000000900000003 and the pair (3, 9). -/
theorem top_blk_round_trip_witness :
    (__top_blk.of_integer 38654705667).to_integer = 38654705667 ∧
    (__top_blk.of_pair 3 9).get_gen = 3 ∧
    (__top_blk.of_pair 3 9).get_top_blk_id = 9 ∧
    (__top_blk.of_pair 3 9).to_integer = 3 + U32 * 9 ∧
    __top_blk.of_integer (__top_blk.of_pair 3 9).to_integer = __top_blk.of_pair 3 9 ∧
    (__top_blk.of_integer (__top_blk.of_pair 3 9).to_integer).get_gen = 3 ∧
    (__top_blk.of_integer (__top_blk.of_pair 3 9).to_integer).get_top_blk_id = 9 :=
  top_blk_round_trip 38654705667 3 9 (by decide) (by decide) (by decide)

/-! ### The pool of control blocks -/

/-- C26: a thread starts with `init_local` for two control blocks: the pool holds
two and nothing is in flight.  A write whose `io_submit` returns -11 raises
the system error with the control block taken and not put back: pool and
requests in flight then count 1.  After a second such write the pool is empty
with nothing in flight, and a third submission finds an empty stack.  A write
that the kernel takes keeps the count at 2. -/
theorem async_submit_failure_leaks_iocb :
    (init_local ep_start 2 5).iocb_list.length + (init_local ep_start 2 5).in_flight.length = 2 ∧
    (async_write (init_local ep_start 2 5) 3 4096 0 77 (-11)).1 = some .system_error ∧
    (async_write (init_local ep_start 2 5) 3 4096 0 77 (-11)).2.iocb_list.length +
      (async_write (init_local ep_start 2 5) 3 4096 0 77 (-11)).2.in_flight.length = 1 ∧
    (async_write (async_write (init_local ep_start 2 5) 3 4096 0 77 (-11)).2
      3 4096 0 78 (-11)).2.iocb_list = [] ∧
    (async_write (async_write (init_local ep_start 2 5) 3 4096 0 77 (-11)).2
      3 4096 0 78 (-11)).2.in_flight = [] ∧
    (async_read (async_write (async_write (init_local ep_start 2 5) 3 4096 0 77 (-11)).2
      3 4096 0 78 (-11)).2 3 4096 0 79 1).1 = some .empty_stack ∧
    (async_write (init_local ep_start 2 5) 3 4096 0 77 1).1 = none ∧
    (async_write (init_local ep_start 2 5) 3 4096 0 77 1).2.iocb_list.length +
      (async_write (init_local ep_start 2 5) 3 4096 0 77 1).2.in_flight.length = 2 := by
  refine ⟨rfl, rfl, rfl, rfl, rfl, rfl, rfl, rfl⟩

/-! ### Synchronous calls -/

/-- C27: for a 32-bit `size` and the value `done` returned by the system call, each
of `sync_write`, `sync_writev`, `sync_read` and `sync_readv` raises the system
error exactly when `done` differs from `size`, and returns normally exactly
when the two are equal; a return of -1 raises the error. -/
theorem sync_calls_fail_iff (size : Nat) (done : Int) (hs : size < U32) :
    (sync_write size done = some .system_error ↔ done ≠ (size : Int)) ∧
    (sync_write size done = none ↔ done = (size : Int)) ∧
    (sync_writev size done = some .system_error ↔ done ≠ (size : Int)) ∧
    (sync_writev size done = none ↔ done = (size : Int)) ∧
    (sync_read size done = some .system_error ↔ done ≠ (size : Int)) ∧
    (sync_read size done = none ↔ done = (size : Int)) ∧
    (sync_readv size done = some .system_error ↔ done ≠ (size : Int)) ∧
    (sync_readv size done = none ↔ done = (size : Int)) ∧
    sync_write size (-1) = some .system_error ∧
    sync_writev size (-1) = some .system_error ∧
    sync_read size (-1) = some .system_error ∧
    sync_readv size (-1) = some .system_error := by
  have hmod : size % U32 = size := Nat.mod_eq_of_lt hs
  have key : ∀ r : Int, (sync_check r size = some .system_error ↔ r ≠ (size : Int)) ∧
      (sync_check r size = none ↔ r = (size : Int)) := by
    intro r
    unfold sync_check
    rw [hmod]
    by_cases h : r = (size : Int)
    · simp [h]
    · simp [h]
  have hneg : sync_check (-1) size = some .system_error := by
    rw [(key (-1)).1]
    omega
  exact ⟨(key done).1, (key done).2, (key done).1, (key done).2, (key done).1, (key done).2,
    (key done).1, (key done).2, hneg, hneg, hneg, hneg⟩

/-- Witness for C27: 4096 bytes requested, 4096 bytes done. -/
theorem sync_calls_fail_iff_witness :
    (sync_write 4096 4096 = some .system_error ↔ (4096 : Int) ≠ ((4096 : Nat) : Int)) ∧
    (sync_write 4096 4096 = none ↔ (4096 : Int) = ((4096 : Nat) : Int)) ∧
    (sync_writev 4096 4096 = some .system_error ↔ (4096 : Int) ≠ ((4096 : Nat) : Int)) ∧
    (sync_writev 4096 4096 = none ↔ (4096 : Int) = ((4096 : Nat) : Int)) ∧
    (sync_read 4096 4096 = some .system_error ↔ (4096 : Int) ≠ ((4096 : Nat) : Int)) ∧
    (sync_read 4096 4096 = none ↔ (4096 : Int) = ((4096 : Nat) : Int)) ∧
    (sync_readv 4096 4096 = some .system_error ↔ (4096 : Int) ≠ ((4096 : Nat) : Int)) ∧
    (sync_readv 4096 4096 = none ↔ (4096 : Int) = ((4096 : Nat) : Int)) ∧
    sync_write 4096 (-1) = some .system_error ∧
    sync_writev 4096 (-1) = some .system_error ∧
    sync_read 4096 (-1) = some .system_error ∧
    sync_readv 4096 (-1) = some .system_error :=
  sync_calls_fail_iff 4096 4096 (by decide)

/-! ### Available size of the journal without clamping -/

theorem u64_sub_of_lt (a b : Nat) (hb : b < U64) (h : a < b) :
    u64_sub a b = U64 - (b - a) := by
  unfold u64_sub
  show (((a : Int) - (b : Int)) % ((U64 : Nat) : Int)).toNat = U64 - (b - a)
  simp only [U64] at *
  omega

theorem used_size_lt (d : JournalVirtualDev) : d.used_size < U64 :=
  Nat.mod_lt _ (by decide)

/-- C28: for every state of the journal virtual device, `available_size()` is
`size() - used_size()` modulo 2^64: it is at most `size()` exactly when
`used_size()` is at most `size()`, and when `used_size()` exceeds `size()` it
is `2^64 - (used_size() - size())`, which is greater than `size()`. -/
theorem available_size_wraps (d : JournalVirtualDev) (hs : d.size < U64) :
    (d.available_size : Int) = ((d.size : Int) - (d.used_size : Int)) % (2 ^ 64 : Int) ∧
    (d.available_size ≤ d.size ↔ d.used_size ≤ d.size) ∧
    (d.size < d.used_size →
      d.available_size = 2 ^ 64 - (d.used_size - d.size) ∧ d.size < d.available_size) := by
  have hu := used_size_lt d
  have hgt : d.size < d.used_size → d.available_size = U64 - (d.used_size - d.size) :=
    fun h => u64_sub_of_lt _ _ hu h
  have hle : d.used_size ≤ d.size → d.available_size = d.size - d.used_size :=
    fun h => u64_sub_of_le _ _ hs h
  refine ⟨?_, ?_, ?_⟩
  · by_cases h : d.used_size ≤ d.size
    · rw [hle h]
      simp only [U64] at hs hu
      omega
    · rw [hgt (by omega)]
      simp only [U64] at hs hu ⊢
      omega
  · constructor
    · intro h
      by_contra hc
      rw [hgt (by omega)] at h
      simp only [U64] at hs hu h
      omega
    · intro h
      rw [hle h]
      omega
  · intro h
    rw [hgt h]
    simp only [U64] at hs hu ⊢
    omega

/-- Witness for C28: 70000 bytes written on a device of 65536 bytes. -/
theorem available_size_wraps_witness :
    jd_over.size < U64 ∧ jd_over.size < jd_over.used_size ∧
    jd_over.available_size = 18446744073709547152 ∧
    ((jd_over.available_size : Int) =
      ((jd_over.size : Int) - (jd_over.used_size : Int)) % (2 ^ 64 : Int) ∧
    (jd_over.available_size ≤ jd_over.size ↔ jd_over.used_size ≤ jd_over.size) ∧
    (jd_over.size < jd_over.used_size →
      jd_over.available_size = 2 ^ 64 - (jd_over.used_size - jd_over.size) ∧
      jd_over.size < jd_over.available_size)) :=
  ⟨by decide, by decide, by decide, available_size_wraps jd_over (by decide)⟩

/-! ### Key generation of the load generator -/

/-- C30: `SimpleTestStore::read` called with its default arguments, for a non-zero
page size and a non-zero `max_blks = m_max_io_size / page_size`: the test of
`nlbas` holds and `nlbas` becomes `rand() % max_blks + 1`, but the test
`lba == -1U` compares 2^64 - 1 with 2^32 - 1 and fails, so the lba handed to
the bitset lookup is 2^64 - 1, which is not below `max_vol_blks`.
`SimpleTestStore::write` called with its default arguments does take both
branches, and its lba is below `max_vol_blks` when `max_blks` is. -/
theorem read_default_lba_outside (m_max_io_size page_size max_vol_blks rand_nlbas rand_lba : Nat)
    (hp : page_size ≠ 0) (hm : m_max_io_size / page_size ≠ 0)
    (hv : max_vol_blks < U64) (hmv : m_max_io_size / page_size < max_vol_blks) :
    SimpleTestStore.read_range m_max_io_size page_size max_vol_blks read_default_lba
        read_default_nlbas rand_nlbas rand_lba =
      .ok (2 ^ 64 - 1, rand_nlbas % (m_max_io_size / page_size) + 1) ∧
    ¬ (2 ^ 64 - 1 < max_vol_blks) ∧
    ∃ lba nlbas, SimpleTestStore.write_range m_max_io_size page_size max_vol_blks
        write_default_lba write_default_nlbas rand_nlbas rand_lba = .ok (lba, nlbas) ∧
      lba < max_vol_blks - nlbas ∧ 1 ≤ nlbas ∧ nlbas ≤ m_max_io_size / page_size := by
  have hr : rand_nlbas % (m_max_io_size / page_size) < m_max_io_size / page_size :=
    Nat.mod_lt _ (Nat.pos_of_ne_zero hm)
  refine ⟨?_, ?_, ?_⟩
  · have hmod : (rand_nlbas % (m_max_io_size / page_size) + 1) % U64 =
        rand_nlbas % (m_max_io_size / page_size) + 1 := Nat.mod_eq_of_lt (by omega)
    have hne : ¬ (read_default_lba = U32 - 1) := by decide
    simp only [SimpleTestStore.read_range, read_default_nlbas, rand_mod, hp, hm, if_true,
      if_false, bind, Except.bind, pure, Except.pure, hmod, hne]
    rfl
  · simp only [U64] at hv
    omega
  · have hnl : ∃ nl, (if rand_nlbas % (m_max_io_size / page_size) % U32 = 0 then 1
        else rand_nlbas % (m_max_io_size / page_size) % U32) = nl ∧ 1 ≤ nl ∧
        nl ≤ m_max_io_size / page_size := by
      refine ⟨_, rfl, ?_, ?_⟩
      · split <;> omega
      · have := Nat.mod_le (rand_nlbas % (m_max_io_size / page_size)) U32
        split <;> omega
    obtain ⟨nl, hnl, h1, h2⟩ := hnl
    have hsub : u64_sub max_vol_blks nl = max_vol_blks - nl :=
      u64_sub_of_le max_vol_blks nl hv (by omega)
    have hpos : ¬ (max_vol_blks - nl = 0) := by omega
    refine ⟨rand_lba % (max_vol_blks - nl), nl, ?_, Nat.mod_lt _ (by omega), h1, h2⟩
    simp only [SimpleTestStore.write_range, write_default_nlbas, write_default_lba, rand_mod,
      hp, hm, if_true, if_false, bind, Except.bind, pure, Except.pure, hnl, hsub, hpos]

/-- Witness for C30: a maximal transfer of 1 MiB in pages of 4096 bytes on a volume
of 1000 blocks, with 7 and 9 drawn by `rand()`. -/
theorem read_default_lba_outside_witness :
    SimpleTestStore.read_range 1048576 4096 1000 read_default_lba read_default_nlbas 7 9 =
      .ok (2 ^ 64 - 1, 7 % (1048576 / 4096) + 1) ∧
    ¬ (2 ^ 64 - 1 < 1000) ∧
    ∃ lba nlbas, SimpleTestStore.write_range 1048576 4096 1000 write_default_lba
        write_default_nlbas 7 9 = .ok (lba, nlbas) ∧
      lba < 1000 - nlbas ∧ 1 ≤ nlbas ∧ nlbas ≤ 1048576 / 4096 :=
  read_default_lba_outside 1048576 4096 1000 7 9 (by decide) (by decide) (by decide)
    (by decide)

end HomeStore
